import Mathlib

/-!
# Brother HL-L2395DW exporter: the scrape-and-map pipeline of `main.go`

A shallow embedding of `newBrotherCollector`, `Describe` and `Collect`.

Modelling conventions.

* A Go slice that is only read is a list; `x[i]` is `x[i]?` with a
  `Failure.indexOutOfRange` when the index is outside the slice.
* A Go `string` that comes from the printer (a CSV cell, the response body) is a
  `GoString`, an arbitrary sequence of bytes; `utf8.ValidString` is `validString`.
  Label names, metric names and error messages are constants or library output and
  stay Lean strings.
* `prometheus.MustNewConstMetric` checks the number of label values and then that
  every label value is valid UTF-8, as the client library does.  The descriptors of
  this program are built from constant, well-formed names, so the descriptor error
  the library also checks is never set.
* `float64` is an arbitrary type `V` with a zero (the zero value that `make`
  fills in); `strconv.ParseFloat` is a parameter returning `some f` exactly when
  its `err` is `nil`.
* The channel `ch` is the list of metrics sent so far.  A `panic` stops `Collect`
  and keeps what was already sent.
* A Go `map[string]float64` is an association list with pairwise distinct keys;
  the order in which `range` visits it is a parameter of the environment.
* The package-level `labels` slice and the slices built from it in
  `newBrotherCollector` live in a small heap of backing arrays, so that aliasing
  between `labels` and `errorLabels` is visible.
-/

namespace Brother

/-! ## Slices over a heap of backing arrays (used by `newBrotherCollector`) -/

/-- A Go slice header whose offset into the backing array is zero. -/
structure Slice where
  array : Nat
  len : Nat
  cap : Nat
deriving DecidableEq, Repr

/-- The backing arrays of all `[]string` values, addressed by position. -/
abbrev Heap := List (List String)

/-- The elements a slice currently shows. -/
def Heap.read (h : Heap) (s : Slice) : List String :=
  (h.getD s.array []).take s.len

/-- Go `make([]string, n)`: a fresh zeroed array, length and capacity `n`. -/
def goMake (h : Heap) (n : Nat) : Slice × Heap :=
  (⟨h.length, n, n⟩, h ++ [List.replicate n ""])

/-- Go `copy(dst, src)`: overwrites the first `min (len dst) (len src)` elements of
the array behind `dst`. -/
def goCopy (h : Heap) (dst src : Slice) : Heap :=
  let n := min dst.len src.len
  h.set dst.array ((h.read src).take n ++ (h.getD dst.array []).drop n)

/-- Go `append(s, x)`: writes in place when capacity allows, otherwise moves the
elements to a fresh, larger array (the growth factor is immaterial here). -/
def goAppend (h : Heap) (s : Slice) (x : String) : Slice × Heap :=
  if s.len < s.cap then
    (⟨s.array, s.len + 1, s.cap⟩, h.set s.array ((h.getD s.array []).set s.len x))
  else
    let newCap := max (2 * s.cap) (s.len + 1)
    (⟨h.length, s.len + 1, newCap⟩,
      h ++ [h.read s ++ [x] ++ List.replicate (newCap - (s.len + 1)) ""])

/-! ## Go strings -/

/-- One byte. -/
abbrev Byte := Fin 256

/-- A Go `string`: an arbitrary sequence of bytes. -/
abbrev GoString := List Byte

/-- The byte with the given value (reduced modulo 256). -/
def byteOf (n : Nat) : Byte := ⟨n % 256, Nat.mod_lt _ (by decide)⟩

/-- The UTF-8 encoding of one character. -/
def encodeChar (c : Char) : List Byte :=
  if c.toNat < 0x80 then [byteOf c.toNat]
  else if c.toNat < 0x800 then [byteOf (0xC0 + c.toNat / 64), byteOf (0x80 + c.toNat % 64)]
  else if c.toNat < 0x10000 then
    [byteOf (0xE0 + c.toNat / 4096), byteOf (0x80 + c.toNat / 64 % 64),
     byteOf (0x80 + c.toNat % 64)]
  else
    [byteOf (0xF0 + c.toNat / 262144), byteOf (0x80 + c.toNat / 4096 % 64),
     byteOf (0x80 + c.toNat / 64 % 64), byteOf (0x80 + c.toNat % 64)]

/-- A Go string literal: the UTF-8 encoding of its text. -/
def goString (s : String) : GoString :=
  s.data.foldr (fun c acc => encodeChar c ++ acc) []

/-- The scan behind `utf8.ValidString`: `need` continuation bytes are still expected
and the next one must lie in `lo..hi`. -/
def validStringAux : List Byte → Nat → Nat → Nat → Bool
  | [], need, _, _ => decide (need = 0)
  | b :: rest, 0, _, _ =>
    if b.val < 0x80 then validStringAux rest 0 0 0
    else if 0xC2 ≤ b.val ∧ b.val ≤ 0xDF then validStringAux rest 1 0x80 0xBF
    else if b.val = 0xE0 then validStringAux rest 2 0xA0 0xBF
    else if b.val = 0xED then validStringAux rest 2 0x80 0x9F
    else if 0xE1 ≤ b.val ∧ b.val ≤ 0xEF then validStringAux rest 2 0x80 0xBF
    else if b.val = 0xF0 then validStringAux rest 3 0x90 0xBF
    else if 0xF1 ≤ b.val ∧ b.val ≤ 0xF3 then validStringAux rest 3 0x80 0xBF
    else if b.val = 0xF4 then validStringAux rest 3 0x80 0x8F
    else false
  | b :: rest, need + 1, lo, hi =>
    if lo ≤ b.val ∧ b.val ≤ hi then validStringAux rest need 0x80 0xBF else false

/-- Go `utf8.ValidString`: the bytes are a sequence of well-formed UTF-8 encodings
(shortest form, no surrogates, at most U+10FFFF). -/
def validString (s : GoString) : Bool :=
  validStringAux s 0 0 0

/-! ## Descriptors and metrics (the part of the client library `main.go` relies on) -/

/-- A `prometheus.Desc`: fully-qualified name, help text, variable label names. -/
structure Desc where
  fqName : String
  help : String
  variableLabels : List String
deriving DecidableEq, Repr

/-- The call `prometheus.NewDesc(fqName, help, variableLabels, nil)`. -/
def NewDesc (fqName help : String) (variableLabels : List String) : Desc :=
  ⟨fqName, help, variableLabels⟩

/-- The type `prometheus.ValueType`. -/
inductive ValueType where
  | CounterValue
  | GaugeValue
  | UntypedValue
deriving DecidableEq, Repr

/-- A constant metric: the descriptor, the value and the label values it was built
with (the library pairs them with the label names at construction time). -/
structure Metric (V : Type) where
  desc : Desc
  valueType : ValueType
  value : V
  labelValues : List GoString

/-- The values `Collect` can panic with, tagged by the place that raises them. -/
inductive Failure where
  /-- line 150: `http.NewRequestWithContext` failed -/
  | request (err : String)
  /-- line 154: `http.DefaultClient.Do` failed (connection error, deadline expiry) -/
  | transport (err : String)
  /-- line 157: `fmt.Errorf("did not get a 200 OK: %d", res.StatusCode)` -/
  | status (msg : String)
  /-- line 165: `r.ReadAll()` failed -/
  | csv (err : String)
  /-- line 168: `fmt.Errorf("no printer rows found. found %d rows in total", ...)` -/
  | noRows (msg : String)
  /-- runtime error: index out of range `[index]` with length `len` -/
  | indexOutOfRange (index len : Nat)
  /-- runtime error: slice bounds out of range `[:high]` with capacity `cap` -/
  | sliceBounds (high cap : Nat)
  /-- inconsistent label cardinality, raised by `MustNewConstMetric` -/
  | labelCardinality (expected got : Nat)
  /-- a label value that is not valid UTF-8, raised by `MustNewConstMetric` -/
  | labelValueNotUTF8 (value : GoString)
deriving DecidableEq, Repr

/-- The out-of-range failures (a data row too short for the fixed positions). -/
def Failure.isShape : Failure → Bool
  | .indexOutOfRange _ _ => true
  | .sliceBounds _ _ => true
  | _ => false

/-- The call `prometheus.MustNewConstMetric(desc, valueType, value, labelValues...)`:
it panics when the number of label values differs from the number of variable
labels, and otherwise on the first label value that is not valid UTF-8. -/
def MustNewConstMetric {V : Type} (desc : Desc) (valueType : ValueType) (value : V)
    (labelValues : List GoString) : Except Failure (Metric V) :=
  if labelValues.length ≠ desc.variableLabels.length then
    .error (.labelCardinality desc.variableLabels.length labelValues.length)
  else
    match labelValues.find? (fun val => !validString val) with
    | some val => .error (.labelValueNotUTF8 val)
    | none => .ok ⟨desc, valueType, value, labelValues⟩

/-! ## The collector -/

/-- The `BrotherCollector` struct, fields in declaration order. -/
structure BrotherCollector where
  url : String
  timeout : Int
  memorySizeMetric : Desc
  pageCounterMetric : Desc
  averageCoverageMetric : Desc
  drumUnitPercentLifeRemainingMetric : Desc
  TonerPercentLifeRemainingMetric : Desc
  A4LetterMetric : Desc
  LegalFolioMetric : Desc
  B5ExecutiveMetric : Desc
  EnvelopesMetric : Desc
  A5Metric : Desc
  Others01Metric : Desc
  PlainThinRecycledMetric : Desc
  ThickThickerBondMetric : Desc
  EnvelopesEnvThicEnvThinMetric : Desc
  LabelMetric : Desc
  HagakiMetric : Desc
  TotalMetric : Desc
  Total2SidedPrintMetric : Desc
  CopyMetric : Desc
  Copy2SidedPrintMetric : Desc
  PrintMetric : Desc
  Print2SidedPrintMetric : Desc
  Others02Metric : Desc
  Others2SidedPrintMetric : Desc
  FlatbedScanMetric : Desc
  ScanPageCountMetric : Desc
  TonerReplaceCountMetric : Desc
  DrumReplaceCountMetric : Desc
  TotalPaperJamsMetric : Desc
  JamTray1Metric : Desc
  JamInsideMetric : Desc
  JamRearMetric : Desc
  Jam2SidedMetric : Desc
  ErrorCountMetric : Desc

/-- The initial contents of the package-level variable `labels`. -/
def labels : List String :=
  ["nodeName", "modelName", "location", "contact", "ipAddress",
   "serialNumber", "mainFirmwareVersion", "sub1FirmwareVersion"]

/-- The slice header of the package-level variable `labels` (a slice literal:
length and capacity are both the number of elements). -/
def labelsVar : Slice := ⟨0, labels.length, labels.length⟩

/-- The heap at program start: array 0 backs `labels`. -/
def startHeap : Heap := [labels]

/-- The call `newBrotherCollector(url, timeout)` run on a heap: returns the collector and
the heap it leaves behind.  `NewDesc` receives the elements the slice shows at the
time of the call. -/
def newBrotherCollector (url : String) (timeout : Int) (h : Heap) : BrotherCollector × Heap :=
  let (errorLabels, h) := goMake h labelsVar.len
  let h := goCopy h errorLabels labelsVar
  let (errorLabels, h) := goAppend h errorLabels "error_message"
  ({ url := url
     timeout := timeout
     memorySizeMetric := NewDesc "brother_memory_size" "" (h.read labelsVar)
     pageCounterMetric := NewDesc "brother_page_counter" "" (h.read labelsVar)
     averageCoverageMetric := NewDesc "brother_average_coverage" "" (h.read labelsVar)
     drumUnitPercentLifeRemainingMetric :=
       NewDesc "brother_drum_unit_percent_life_remaining" "" (h.read labelsVar)
     TonerPercentLifeRemainingMetric :=
       NewDesc "brother_toner_percent_life_remaining" "" (h.read labelsVar)
     A4LetterMetric := NewDesc "brother_page_counter_a4_letter" "" (h.read labelsVar)
     LegalFolioMetric := NewDesc "brother_page_counter_legal_folio" "" (h.read labelsVar)
     B5ExecutiveMetric := NewDesc "brother_page_counter_b5_executive" "" (h.read labelsVar)
     EnvelopesMetric := NewDesc "brother_page_counter_envelopes" "" (h.read labelsVar)
     A5Metric := NewDesc "brother_page_counter_a5" "" (h.read labelsVar)
     Others01Metric := NewDesc "brother_others_01" "" (h.read labelsVar)
     PlainThinRecycledMetric :=
       NewDesc "brother_page_counter_plain_thin_recycled" "" (h.read labelsVar)
     ThickThickerBondMetric :=
       NewDesc "brother_page_counter_thick_thicker_bond" "" (h.read labelsVar)
     EnvelopesEnvThicEnvThinMetric :=
       NewDesc "brother_page_counter_envelopes_env_thic_env_thin" "" (h.read labelsVar)
     LabelMetric := NewDesc "brother_page_counter_label" "" (h.read labelsVar)
     HagakiMetric := NewDesc "brother_page_counter_hagaki" "" (h.read labelsVar)
     TotalMetric := NewDesc "brother_page_counter_total" "" (h.read labelsVar)
     Total2SidedPrintMetric :=
       NewDesc "brother_page_counter_total_two_sided" "" (h.read labelsVar)
     CopyMetric := NewDesc "brother_copies" "" (h.read labelsVar)
     Copy2SidedPrintMetric := NewDesc "brother_copies_two_sided" "" (h.read labelsVar)
     PrintMetric := NewDesc "brother_prints" "" (h.read labelsVar)
     Print2SidedPrintMetric := NewDesc "brother_prints_two_sided" "" (h.read labelsVar)
     Others02Metric := NewDesc "brother_others_02" "" (h.read labelsVar)
     Others2SidedPrintMetric := NewDesc "brother_others_two_sided" "" (h.read labelsVar)
     FlatbedScanMetric := NewDesc "brother_scan" "" (h.read labelsVar)
     ScanPageCountMetric := NewDesc "brother_scan_page_counter" "" (h.read labelsVar)
     TonerReplaceCountMetric := NewDesc "brother_toner_replacements" "" (h.read labelsVar)
     DrumReplaceCountMetric := NewDesc "brother_drum_replacements" "" (h.read labelsVar)
     TotalPaperJamsMetric := NewDesc "brother_paper_jams" "" (h.read labelsVar)
     JamTray1Metric := NewDesc "brother_paper_jam_tray_1" "" (h.read labelsVar)
     JamInsideMetric := NewDesc "brother_paper_jam_inside" "" (h.read labelsVar)
     JamRearMetric := NewDesc "brother_paper_jam_rear" "" (h.read labelsVar)
     Jam2SidedMetric := NewDesc "brother_paper_jam_two_sided" "" (h.read labelsVar)
     ErrorCountMetric := NewDesc "brother_error_count" "" (h.read errorLabels) }, h)

/-- The collector `main` registers: `newBrotherCollector` run at program start. -/
def collector (url : String) (timeout : Int) : BrotherCollector :=
  (newBrotherCollector url timeout startHeap).1

/-- The method `Describe`: the descriptors sent on the channel, in order. -/
def Describe (b : BrotherCollector) : List Desc :=
  [b.memorySizeMetric, b.pageCounterMetric, b.averageCoverageMetric,
   b.drumUnitPercentLifeRemainingMetric, b.TonerPercentLifeRemainingMetric,
   b.A4LetterMetric, b.LegalFolioMetric, b.B5ExecutiveMetric, b.EnvelopesMetric,
   b.A5Metric, b.Others01Metric, b.PlainThinRecycledMetric, b.ThickThickerBondMetric,
   b.EnvelopesEnvThicEnvThinMetric, b.LabelMetric, b.HagakiMetric, b.TotalMetric,
   b.Total2SidedPrintMetric, b.CopyMetric, b.Copy2SidedPrintMetric, b.PrintMetric,
   b.Print2SidedPrintMetric, b.Others02Metric, b.Others2SidedPrintMetric,
   b.FlatbedScanMetric, b.ScanPageCountMetric, b.TonerReplaceCountMetric,
   b.DrumReplaceCountMetric, b.TotalPaperJamsMetric, b.JamTray1Metric,
   b.JamInsideMetric, b.JamRearMetric, b.Jam2SidedMetric, b.ErrorCountMetric]

/-! ## The environment of one scrape -/

/-- What lines 146-155 obtain for the collector's URL and timeout. -/
inductive FetchOutcome where
  /-- the call `http.NewRequestWithContext` returned an error -/
  | requestError (err : String)
  /-- the call `http.DefaultClient.Do` returned an error (transport failure, deadline
  expiry) -/
  | doError (err : String)
  /-- a response arrived, with this status code and body -/
  | response (statusCode : Int) (body : GoString)
deriving DecidableEq, Repr

/-- The library calls and runtime choices `Collect` depends on. -/
structure Env (V : Type) where
  /-- lines 146-155, for a URL and a timeout in seconds -/
  httpGet : String → Int → FetchOutcome
  /-- the call `csv.NewReader(body).ReadAll()` -/
  readAll : GoString → Except String (List (List GoString))
  /-- the call `strconv.ParseFloat(value, 64)`: `some f` exactly when `err == nil` -/
  parseFloat : GoString → Option V
  /-- the order in which `range` visits the entries of a map -/
  rangeOrder : List (GoString × V) → List (GoString × V)

/-- What one call of `Collect` did. -/
structure Outcome (V : Type) where
  /-- the metrics sent on `ch`, in order -/
  sent : List (Metric V)
  /-- whether `r.ReadAll()` was reached -/
  bodyRead : Bool
  /-- the value `Collect` panicked with, if it did -/
  failure : Option Failure

/-! ## `Collect` -/

/-- Lines 176-180: the loop `for i, value := range row`, from index `i` on. -/
def convertLoop {V : Type} (parseFloat : GoString → Option V) :
    List GoString → Nat → List V → List V
  | [], _, values => values
  | value :: rest, i, values =>
    match parseFloat value with
    | some f => convertLoop parseFloat rest (i + 1) (values.set i f)
    | none => convertLoop parseFloat rest (i + 1) values

/-- Lines 175-180: `values := make([]float64, len(row))` followed by the loop. -/
def convert {V : Type} [Zero V] (parseFloat : GoString → Option V) (row : List GoString) :
    List V :=
  convertLoop parseFloat row 0 (List.replicate row.length 0)

/-- Lines 189-221 as a table: the descriptor and the position of `values` each
statement uses, in statement order. -/
def gaugeStatements (b : BrotherCollector) : List (Desc × Nat) :=
  [(b.memorySizeMetric, 8), (b.pageCounterMetric, 9), (b.averageCoverageMetric, 10),
   (b.drumUnitPercentLifeRemainingMetric, 11), (b.TonerPercentLifeRemainingMetric, 12),
   (b.A4LetterMetric, 13), (b.LegalFolioMetric, 14), (b.B5ExecutiveMetric, 15),
   (b.EnvelopesMetric, 16), (b.A5Metric, 17), (b.Others01Metric, 18),
   (b.PlainThinRecycledMetric, 19), (b.ThickThickerBondMetric, 20),
   (b.EnvelopesEnvThicEnvThinMetric, 21), (b.LabelMetric, 22), (b.HagakiMetric, 23),
   (b.TotalMetric, 24), (b.Total2SidedPrintMetric, 25), (b.CopyMetric, 26),
   (b.Copy2SidedPrintMetric, 27), (b.PrintMetric, 28), (b.Print2SidedPrintMetric, 29),
   (b.Others02Metric, 30), (b.Others2SidedPrintMetric, 31), (b.FlatbedScanMetric, 32),
   (b.ScanPageCountMetric, 33), (b.TonerReplaceCountMetric, 34),
   (b.DrumReplaceCountMetric, 35), (b.TotalPaperJamsMetric, 36), (b.JamTray1Metric, 37),
   (b.JamInsideMetric, 38), (b.JamRearMetric, 39), (b.Jam2SidedMetric, 40)]

/-- Runs statements `ch <- MustNewConstMetric(d, GaugeValue, values[i], labelValues...)`
one after the other: the index expression is evaluated first, then the metric is
built, then it is sent.  Returns the channel contents and the panic, if any. -/
def sendGauges {V : Type} (labelValues : List GoString) (values : List V) :
    List (Desc × Nat) → List (Metric V) → List (Metric V) × Option Failure
  | [], sent => (sent, none)
  | (d, i) :: rest, sent =>
    match values[i]? with
    | none => (sent, some (.indexOutOfRange i values.length))
    | some v =>
      match MustNewConstMetric d .GaugeValue v labelValues with
      | .error e => (sent, some e)
      | .ok m => sendGauges labelValues values rest (sent ++ [m])

/-- The assignment `m[key] = val` on a map kept as a list of entries with distinct
keys: an existing entry is overwritten, a new key gets a new entry. -/
def mapAssign {V : Type} : List (GoString × V) → GoString → V → List (GoString × V)
  | [], key, val => [(key, val)]
  | (k, v) :: rest, key, val =>
    if k = key then (key, val) :: rest else (k, v) :: mapAssign rest key val

/-- Lines 225-227: the loop body `m[row[i]] = values[i+10]` for the given values of
`i` in turn.  Both index expressions are evaluated before the assignment, so a turn
that panics leaves the map as it was; the compiled statement checks the index of
`values[i+10]` first and the index of `row[i]` second. -/
def tallyLoop {V : Type} (row : List GoString) (values : List V) :
    List Nat → List (GoString × V) → Except Failure (List (GoString × V))
  | [], m => .ok m
  | i :: rest, m =>
    match values[i + 10]? with
    | none => .error (.indexOutOfRange (i + 10) values.length)
    | some val =>
      match row[i]? with
      | none => .error (.indexOutOfRange i row.length)
      | some key => tallyLoop row values rest (mapAssign m key val)

/-- Lines 228-231: the loop over the map entries in the order given.  Each turn
overwrites the last element of `labelValuesWithError` and sends one metric. -/
def sendErrors {V : Type} (b : BrotherCollector) (labelValuesWithErrorLenMinusOne : Nat) :
    List (GoString × V) → List GoString → List (Metric V) → List (Metric V) × Option Failure
  | [], _, sent => (sent, none)
  | (key, val) :: rest, labelValuesWithError, sent =>
    if labelValuesWithErrorLenMinusOne < labelValuesWithError.length then
      let labelValuesWithError := labelValuesWithError.set labelValuesWithErrorLenMinusOne key
      match MustNewConstMetric b.ErrorCountMetric .GaugeValue val labelValuesWithError with
      | .error e => (sent, some e)
      | .ok m => sendErrors b labelValuesWithErrorLenMinusOne rest labelValuesWithError (sent ++ [m])
    else
      (sent, some (.indexOutOfRange labelValuesWithErrorLenMinusOne labelValuesWithError.length))

/-- Go `copy(dst, src)` on a slice that nothing else aliases: the new contents of
`dst`. -/
def copyInto (dst src : List GoString) : List GoString :=
  src.take (min dst.length src.length) ++ dst.drop (min dst.length src.length)

/-- Lines 174-231: everything `Collect` does with the data row. -/
def collectRow {V : Type} [Zero V] (b : BrotherCollector) (env : Env V) (row : List GoString) :
    List (Metric V) × Option Failure :=
  let values := convert env.parseFloat row
  -- labelValues := row[0:8]; the capacity of a decoded record is its length
  if row.length < 8 then ([], some (.sliceBounds 8 row.length))
  else
    let labelValues := row.take 8
    let labelValuesWithError := List.replicate labelValues.length (goString "")
    let labelValuesWithError := copyInto labelValuesWithError labelValues
    let labelValuesWithError := labelValuesWithError ++ [goString "CHANGEME"]
    let labelValuesWithErrorLenMinusOne := labelValuesWithError.length - 1
    match sendGauges labelValues values (gaugeStatements b) [] with
    | (sent, some e) => (sent, some e)
    | (sent, none) =>
      -- for i := 41; i <= 50; i++
      match tallyLoop row values (List.range' 41 10) [] with
      | .error e => (sent, some e)
      | .ok m =>
        sendErrors b labelValuesWithErrorLenMinusOne (env.rangeOrder m) labelValuesWithError sent

/-- The method `Collect`, lines 145-232. -/
def Collect {V : Type} [Zero V] (b : BrotherCollector) (env : Env V) : Outcome V :=
  match env.httpGet b.url b.timeout with
  | .requestError err => ⟨[], false, some (.request err)⟩
  | .doError err => ⟨[], false, some (.transport err)⟩
  | .response statusCode body =>
    if statusCode ≠ 200 then
      ⟨[], false, some (.status ("did not get a 200 OK: " ++ toString statusCode))⟩
    else
      match env.readAll body with
      | .error err => ⟨[], true, some (.csv err)⟩
      | .ok records =>
        if records.length ≤ 1 then
          ⟨[], true, some (.noRows ("no printer rows found. found " ++
            toString records.length ++ " rows in total"))⟩
        else
          match records[1]? with
          | none => ⟨[], true, some (.indexOutOfRange 1 records.length)⟩
          | some row =>
            let r := collectRow b env row
            ⟨r.1, true, r.2⟩

/-! ## Vocabulary for the statements -/

/-- The gauge samples among the metrics sent: those not built on `ErrorCountMetric`. -/
def gaugeSamples {V : Type} (b : BrotherCollector) (sent : List (Metric V)) : List (Metric V) :=
  sent.filter (fun s => decide (s.desc ≠ b.ErrorCountMetric))

/-- The error samples among the metrics sent: those built on `ErrorCountMetric`. -/
def errorSamples {V : Type} (b : BrotherCollector) (sent : List (Metric V)) : List (Metric V) :=
  sent.filter (fun s => decide (s.desc = b.ErrorCountMetric))

/-- Cells 41..50 of a row: the error-code region. -/
def codeRegion (row : List GoString) : List GoString :=
  (row.drop 41).take 10

/-- Cells 0..7 of a row (those it has) are valid UTF-8. -/
def labelsValid (row : List GoString) : Bool :=
  (row.take 8).all validString

/-- Cells 41..50 of a row (those it has) are valid UTF-8. -/
def codesValid (row : List GoString) : Bool :=
  (codeRegion row).all validString

/-- The error code a sample carries: its last label value. -/
def errorCode {V : Type} (s : Metric V) : GoString :=
  (s.labelValues.getLast?).getD []

/-- Position `p` is the last one in the error-code region 41..50 holding code `c`. -/
def LastCodePosition (row : List GoString) (c : GoString) (p : Nat) : Prop :=
  41 ≤ p ∧ p ≤ 50 ∧ row[p]? = some c ∧ ∀ q, p + 1 ≤ q → q < 51 → row[q]? ≠ some c

instance (row : List GoString) (c : GoString) (p : Nat) :
    Decidable (LastCodePosition row c p) := by
  unfold LastCodePosition
  infer_instance

/-- The metric a gauge statement builds when nothing goes wrong. -/
def gaugeSample {V : Type} [Zero V] (labelValues : List GoString) (values : List V)
    (p : Desc × Nat) : Metric V :=
  ⟨p.1, .GaugeValue, values.getD p.2 0, labelValues⟩

/-- The metric the second error loop builds for one map entry. -/
def errorSample {V : Type} (b : BrotherCollector) (labelValues : List GoString)
    (e : GoString × V) : Metric V :=
  ⟨b.ErrorCountMetric, .GaugeValue, e.2, labelValues ++ [e.1]⟩

/-- The map the first error loop builds when every index is in range. -/
def tally {V : Type} [Zero V] (row : List GoString) (values : List V) (idxs : List Nat)
    (m : List (GoString × V)) : List (GoString × V) :=
  idxs.foldl (fun m i => mapAssign m (row.getD i []) (values.getD (i + 10) 0)) m

/-! ## Concrete scrapes, used to exercise the statements -/

/-- Reads a string of ASCII decimal digits as a number. -/
def digitsValue : List Byte → Nat → Option Nat
  | [], acc => some acc
  | c :: cs, acc =>
    if 48 ≤ c.val ∧ c.val ≤ 57 then digitsValue cs (10 * acc + (c.val - 48)) else none

/-- A float parser restricted to unsigned decimal integers. -/
def demoParse (s : GoString) : Option Int :=
  match s with
  | [] => none
  | cs => (digitsValue cs 0).map Int.ofNat

/-- A data row of 61 cells: labels, gauges 8..40 holding their own position,
codes E1, E2, E1 and seven empty cells, counts 5, 3, 9 and seven zeros. -/
def demoRow : List GoString :=
  ["node", "HL-L2395DW", "office", "admin", "10.0.0.3", "U1", "1.0", "2.0",
   "8", "9", "10", "11", "12", "13", "14", "15", "16", "17", "18", "19", "20",
   "21", "22", "23", "24", "25", "26", "27", "28", "29", "30", "31", "32", "33",
   "34", "35", "36", "37", "38", "39", "40",
   "E1", "E2", "E1", "", "", "", "", "", "", "",
   "5", "3", "9", "0", "0", "0", "0", "0", "0", "0"].map goString

/-- A string of one byte that is not valid UTF-8. -/
def badString : GoString := [byteOf 0xFF]

/-- The sample row with a first cell that is not valid UTF-8. -/
def badLabelRow : List GoString := demoRow.set 0 badString

/-- The sample row with a code in cell 41 that is not valid UTF-8. -/
def badCodeRow : List GoString := demoRow.set 41 badString

/-- The sample row with a code in cell 42 that is not valid UTF-8. -/
def badSecondCodeRow : List GoString := demoRow.set 42 badString

/-- An environment whose fetch yields the given outcome and whose decoder yields
the given records. -/
def demoEnvWith (fetch : FetchOutcome) (records : List (List GoString)) : Env Int where
  httpGet := fun _ _ => fetch
  readAll := fun _ => .ok records
  parseFloat := demoParse
  rangeOrder := fun m => m

/-- The URL `main` builds from the default flags. -/
def demoURL : String := "http://10.0.0.3/etc/mnt_info.csv"

/-- The collector `main` registers with the default flags. -/
def demoCollector : BrotherCollector := collector demoURL 10

/-- A header record of 61 cells. -/
def demoHeader : List GoString := List.replicate 61 (goString "h")

/-- An environment whose fetch succeeds with status 200 and whose decoder yields
the given records. -/
def demoEnv (records : List (List GoString)) : Env Int where
  httpGet := fun _ _ => .response 200 (goString "body")
  readAll := fun _ => .ok records
  parseFloat := demoParse
  rangeOrder := fun m => m

/-! ## The conversion loop -/

theorem convertLoop_eq {V : Type} [Zero V] (pf : GoString → Option V) :
    ∀ (rest : List GoString) (pre : List V),
      convertLoop pf rest pre.length (pre ++ List.replicate rest.length 0)
        = pre ++ rest.map (fun c => (pf c).getD 0) := by
  intro rest
  induction rest with
  | nil => intro pre; simp [convertLoop]
  | cons c rest ih =>
    intro pre
    have hlen : (pre ++ [(pf c).getD 0]).length = pre.length + 1 := by simp
    cases hc : pf c with
    | none =>
      have h := ih (pre ++ [(pf c).getD 0])
      rw [hlen] at h
      simp only [hc, Option.getD_none, List.append_assoc, List.singleton_append] at h
      simp only [convertLoop, hc, List.length_cons, List.replicate_succ, List.map_cons,
        Option.getD_none]
      exact h
    | some f =>
      have h := ih (pre ++ [(pf c).getD 0])
      rw [hlen] at h
      simp only [hc, Option.getD_some, List.append_assoc, List.singleton_append] at h
      simp only [convertLoop, hc, List.length_cons, List.replicate_succ, List.map_cons,
        Option.getD_some]
      have hset : (pre ++ 0 :: List.replicate rest.length (0 : V)).set pre.length f
          = pre ++ f :: List.replicate rest.length 0 := by
        simp [List.set_append]
      rw [hset]
      exact h

theorem convert_eq_map {V : Type} [Zero V] (pf : GoString → Option V) (row : List GoString) :
    convert pf row = row.map (fun c => (pf c).getD 0) := by
  have h := convertLoop_eq pf row []
  simpa [convert] using h

theorem convert_length {V : Type} [Zero V] (pf : GoString → Option V) (row : List GoString) :
    (convert pf row).length = row.length := by
  simp [convert_eq_map]

theorem convert_getElem? {V : Type} [Zero V] (pf : GoString → Option V) (row : List GoString)
    (i : Nat) : (convert pf row)[i]? = (row[i]?).map (fun c => (pf c).getD 0) := by
  simp [convert_eq_map]

/-! ## Building a metric -/

theorem MustNewConstMetric_ok {V : Type} (d : Desc) (t : ValueType) (v : V)
    (lv : List GoString) (hlen : lv.length = d.variableLabels.length)
    (hvalid : ∀ c ∈ lv, validString c = true) :
    MustNewConstMetric d t v lv = .ok ⟨d, t, v, lv⟩ := by
  have hfind : lv.find? (fun val => !validString val) = none := by
    rw [List.find?_eq_none]
    intro c hc
    simp [hvalid c hc]
  simp [MustNewConstMetric, hlen, hfind]

theorem MustNewConstMetric_bad {V : Type} (d : Desc) (t : ValueType) (v : V)
    (lv : List GoString) (hlen : lv.length = d.variableLabels.length)
    (hbad : ¬ ∀ c ∈ lv, validString c = true) :
    ∃ val, MustNewConstMetric d t v lv
      = (.error (.labelValueNotUTF8 val) : Except Failure (Metric V)) := by
  cases hfind : lv.find? (fun val => !validString val) with
  | none =>
    rw [List.find?_eq_none] at hfind
    exfalso
    apply hbad
    intro c hc
    simpa using hfind c hc
  | some val => exact ⟨val, by simp [MustNewConstMetric, hlen, hfind]⟩

theorem MustNewConstMetric_bad_last {V : Type} (d : Desc) (t : ValueType) (v : V)
    (lv : List GoString) (key : GoString) (hlen : (lv ++ [key]).length = d.variableLabels.length)
    (hvalid : ∀ c ∈ lv, validString c = true) (hkey : validString key = false) :
    MustNewConstMetric d t v (lv ++ [key])
      = (.error (.labelValueNotUTF8 key) : Except Failure (Metric V)) := by
  have hfind : (lv ++ [key]).find? (fun val => !validString val) = some key := by
    have h1 : lv.find? (fun val => !validString val) = none := by
      rw [List.find?_eq_none]
      intro c hc
      simp [hvalid c hc]
    rw [List.find?_append, h1]
    simp [hkey]
  simp [MustNewConstMetric, hlen, hfind]

theorem MustNewConstMetric_error_kind {V : Type} (d : Desc) (t : ValueType) (v : V)
    (lv : List GoString) (e : Failure)
    (h : (MustNewConstMetric d t v lv : Except Failure (Metric V)) = .error e) :
    (∃ x y, e = .labelCardinality x y) ∨ ∃ val, e = .labelValueNotUTF8 val := by
  unfold MustNewConstMetric at h
  by_cases hlen : lv.length = d.variableLabels.length
  · simp only [hlen, ne_eq, not_true_eq_false, if_false] at h
    cases hfind : lv.find? (fun val => !validString val) with
    | none => rw [hfind] at h; cases h
    | some val =>
      rw [hfind] at h
      simp only [Except.error.injEq] at h
      exact Or.inr ⟨val, h.symm⟩
  · simp only [hlen, ne_eq, not_false_eq_true, if_true, Except.error.injEq] at h
    exact Or.inl ⟨_, _, h.symm⟩

/-! ## The gauge statements -/

theorem sendGauges_eq {V : Type} [Zero V] (lv : List GoString) (values : List V)
    (hvalid : ∀ c ∈ lv, validString c = true) :
    ∀ (stmts : List (Desc × Nat)) (sent : List (Metric V)),
      (∀ p ∈ stmts, p.1.variableLabels.length = lv.length) →
      sendGauges lv values stmts sent
        = (sent ++ (stmts.takeWhile (fun p => decide (p.2 < values.length))).map
              (gaugeSample lv values),
            (stmts.find? (fun p => !decide (p.2 < values.length))).map
              (fun p => Failure.indexOutOfRange p.2 values.length)) := by
  intro stmts
  induction stmts with
  | nil => intro sent _; simp [sendGauges]
  | cons p stmts ih =>
    intro sent hp
    obtain ⟨d, i⟩ := p
    have hd : lv.length = d.variableLabels.length := (hp (d, i) (by simp)).symm
    by_cases hi : i < values.length
    · have hget : values[i]? = some values[i] := List.getElem?_eq_getElem hi
      have hD : values.getD i 0 = values[i] := by simp [List.getD, hget]
      simp only [sendGauges, hget, MustNewConstMetric_ok d .GaugeValue values[i] lv hd hvalid]
      rw [ih _ (fun q hq => hp q (List.mem_cons_of_mem _ hq))]
      simp [List.takeWhile_cons, hi, gaugeSample, hD]
    · have hget : values[i]? = none := List.getElem?_eq_none (Nat.le_of_not_lt hi)
      simp [sendGauges, hget, List.takeWhile_cons, hi]

/-- With a label value that is not valid UTF-8 the first statement whose index is in
range fails and nothing is sent. -/
theorem sendGauges_bad {V : Type} (lv : List GoString) (values : List V)
    (hbad : ¬ ∀ c ∈ lv, validString c = true) (d : Desc) (i : Nat)
    (rest : List (Desc × Nat)) (sent : List (Metric V))
    (hd : d.variableLabels.length = lv.length) (hi : i < values.length) :
    ∃ val, sendGauges lv values ((d, i) :: rest) sent
      = (sent, some (.labelValueNotUTF8 val)) := by
  obtain ⟨val, hval⟩ := MustNewConstMetric_bad d .GaugeValue values[i] lv hd.symm hbad
  exact ⟨val, by simp only [sendGauges, List.getElem?_eq_getElem hi, hval]⟩

theorem sendGauges_failure_kind {V : Type} (lv : List GoString) (values : List V) :
    ∀ (stmts : List (Desc × Nat)) (sent : List (Metric V)) (e : Failure),
      (sendGauges lv values stmts sent).2 = some e →
      e.isShape = true ∨ (∃ x y, e = .labelCardinality x y)
        ∨ ∃ val, e = .labelValueNotUTF8 val := by
  intro stmts
  induction stmts with
  | nil => intro sent e h; simp [sendGauges] at h
  | cons p stmts ih =>
    intro sent e h
    obtain ⟨d, i⟩ := p
    cases hget : values[i]? with
    | none =>
      simp only [sendGauges, hget, Option.some.injEq] at h
      subst h
      exact Or.inl rfl
    | some v =>
      cases hm : (MustNewConstMetric d .GaugeValue v lv : Except Failure (Metric V)) with
      | error e' =>
        simp only [sendGauges, hget, hm, Option.some.injEq] at h
        subst h
        exact Or.inr (MustNewConstMetric_error_kind d .GaugeValue v lv _ hm)
      | ok m =>
        simp only [sendGauges, hget, hm] at h
        exact ih _ e h

/-! ## The map of error codes -/

theorem mapAssign_keys_mem {V : Type} (m : List (GoString × V)) (k : GoString) (v : V)
    (c : GoString) :
    c ∈ (mapAssign m k v).map Prod.fst ↔ c = k ∨ c ∈ m.map Prod.fst := by
  induction m with
  | nil => simp [mapAssign]
  | cons e m ih =>
    obtain ⟨k0, v0⟩ := e
    by_cases h : k0 = k
    · subst h
      simp [mapAssign]
    · simp only [mapAssign, h, if_false, List.map_cons, List.mem_cons, ih]
      tauto

theorem mapAssign_nodup {V : Type} (m : List (GoString × V)) (k : GoString) (v : V)
    (hm : (m.map Prod.fst).Nodup) : ((mapAssign m k v).map Prod.fst).Nodup := by
  induction m with
  | nil => simp [mapAssign]
  | cons e m ih =>
    obtain ⟨k0, v0⟩ := e
    simp only [List.map_cons, List.nodup_cons] at hm
    by_cases h : k0 = k
    · subst h
      simpa [mapAssign] using hm
    · simp only [mapAssign, h, if_false, List.map_cons, List.nodup_cons]
      refine ⟨?_, ih hm.2⟩
      rw [mapAssign_keys_mem]
      rintro (h1 | h1)
      · exact h h1
      · exact hm.1 h1

theorem mapAssign_mem {V : Type} (m : List (GoString × V)) (k : GoString) (v : V)
    (hm : (m.map Prod.fst).Nodup) (c : GoString) (x : V) :
    (c, x) ∈ mapAssign m k v ↔ (c = k ∧ x = v) ∨ (c ≠ k ∧ (c, x) ∈ m) := by
  induction m with
  | nil => simp [mapAssign]
  | cons e m ih =>
    obtain ⟨k0, v0⟩ := e
    simp only [List.map_cons, List.nodup_cons] at hm
    by_cases h : k0 = k
    · subst h
      simp only [mapAssign, if_true, List.mem_cons, Prod.mk.injEq]
      constructor
      · rintro (h1 | h1)
        · exact Or.inl h1
        · refine Or.inr ⟨?_, Or.inr h1⟩
          rintro rfl
          exact hm.1 (List.mem_map.2 ⟨(c, x), h1, rfl⟩)
      · rintro (h1 | ⟨h1, h2 | h2⟩)
        · exact Or.inl h1
        · exact absurd h2.1 h1
        · exact Or.inr h2
    · simp only [mapAssign, h, if_false, List.mem_cons, Prod.mk.injEq, ih hm.2]
      constructor
      · rintro (⟨rfl, rfl⟩ | h1 | h1)
        · exact Or.inr ⟨h, Or.inl ⟨rfl, rfl⟩⟩
        · exact Or.inl h1
        · exact Or.inr ⟨h1.1, Or.inr h1.2⟩
      · rintro (h1 | ⟨h1, h2 | h2⟩)
        · exact Or.inr (Or.inl h1)
        · exact Or.inl h2
        · exact Or.inr (Or.inr ⟨h1, h2⟩)

theorem tally_nodup {V : Type} [Zero V] (row : List GoString) (values : List V) :
    ∀ (idxs : List Nat) (m : List (GoString × V)),
      (m.map Prod.fst).Nodup → ((tally row values idxs m).map Prod.fst).Nodup := by
  intro idxs
  induction idxs with
  | nil => intro m hm; simpa [tally] using hm
  | cons i idxs ih =>
    intro m hm
    have := ih (mapAssign m (row.getD i []) (values.getD (i + 10) 0)) (mapAssign_nodup _ _ _ hm)
    simpa [tally] using this

theorem tally_keys_mem {V : Type} [Zero V] (row : List GoString) (values : List V) (c : GoString) :
    ∀ (idxs : List Nat) (m : List (GoString × V)),
      c ∈ (tally row values idxs m).map Prod.fst
        ↔ (∃ i ∈ idxs, row.getD i [] = c) ∨ c ∈ m.map Prod.fst := by
  intro idxs
  induction idxs with
  | nil => intro m; simp [tally]
  | cons i idxs ih =>
    intro m
    have h := ih (mapAssign m (row.getD i []) (values.getD (i + 10) 0))
    rw [mapAssign_keys_mem] at h
    have e : tally row values (i :: idxs) m
        = tally row values idxs (mapAssign m (row.getD i []) (values.getD (i + 10) 0)) := rfl
    rw [e, h]
    simp only [List.mem_cons, exists_eq_or_imp]
    constructor
    · rintro (h1 | h1 | h1)
      · exact Or.inl (Or.inr h1)
      · exact Or.inl (Or.inl h1.symm)
      · exact Or.inr h1
    · rintro ((h1 | h1) | h1)
      · exact Or.inr (Or.inl h1.symm)
      · exact Or.inl h1
      · exact Or.inr (Or.inr h1)

/-- Entries of the finished map: the value of a key is the one assigned at the last
index holding that key. -/
theorem tally_mem {V : Type} [Zero V] (row : List GoString) (values : List V) (c : GoString)
    (x : V) :
    ∀ (idxs : List Nat) (m : List (GoString × V)),
      idxs.Pairwise (fun a b => a < b) → (m.map Prod.fst).Nodup →
      ((c, x) ∈ tally row values idxs m
        ↔ (∃ i ∈ idxs, row.getD i [] = c ∧ values.getD (i + 10) 0 = x ∧
              ∀ q ∈ idxs, i < q → row.getD q [] ≠ c)
          ∨ ((∀ q ∈ idxs, row.getD q [] ≠ c) ∧ (c, x) ∈ m)) := by
  intro idxs
  induction idxs with
  | nil => intro m _ _; simp [tally]
  | cons a idxs ih =>
    intro m hs hm
    rw [List.pairwise_cons] at hs
    have e : tally row values (a :: idxs) m
        = tally row values idxs (mapAssign m (row.getD a []) (values.getD (a + 10) 0)) := rfl
    rw [e, ih _ hs.2 (mapAssign_nodup _ _ _ hm), mapAssign_mem _ _ _ hm]
    constructor
    · rintro (⟨i, hi, h1, h2, h3⟩ | ⟨h1, h2 | h2⟩)
      · refine Or.inl ⟨i, List.mem_cons_of_mem _ hi, h1, h2, ?_⟩
        intro q hq hlt
        rcases List.mem_cons.1 hq with rfl | hq
        · exact absurd hlt (Nat.lt_asymm (hs.1 i hi))
        · exact h3 q hq hlt
      · refine Or.inl ⟨a, List.mem_cons_self _ _, h2.1.symm, h2.2.symm, ?_⟩
        intro q hq hlt
        rcases List.mem_cons.1 hq with rfl | hq
        · exact absurd hlt (Nat.lt_irrefl _)
        · exact h1 q hq
      · refine Or.inr ⟨?_, h2.2⟩
        intro q hq
        rcases List.mem_cons.1 hq with rfl | hq
        · exact fun h => h2.1 h.symm
        · exact h1 q hq
    · rintro (⟨i, hi, h1, h2, h3⟩ | ⟨h1, h2⟩)
      · rcases List.mem_cons.1 hi with rfl | hi
        · by_cases hex : ∃ j ∈ idxs, row.getD j [] = c
          · exfalso
            obtain ⟨j, hj, hjc⟩ := hex
            exact h3 j (List.mem_cons_of_mem _ hj) (hs.1 j hj) hjc
          · refine Or.inr ⟨?_, Or.inl ⟨h1.symm, h2.symm⟩⟩
            intro q hq hqc
            exact hex ⟨q, hq, hqc⟩
        · exact Or.inl ⟨i, hi, h1, h2, fun q hq => h3 q (List.mem_cons_of_mem _ hq)⟩
      · refine Or.inr ⟨fun q hq => h1 q (List.mem_cons_of_mem _ hq), Or.inr ⟨?_, h2⟩⟩
        exact fun h => h1 a (List.mem_cons_self _ _) h.symm

theorem tallyLoop_ok {V : Type} [Zero V] (row : List GoString) (values : List V) :
    ∀ (idxs : List Nat) (m : List (GoString × V)),
      (∀ i ∈ idxs, i < row.length ∧ i + 10 < values.length) →
      tallyLoop row values idxs m = .ok (tally row values idxs m) := by
  intro idxs
  induction idxs with
  | nil => intro m _; rfl
  | cons i idxs ih =>
    intro m h
    obtain ⟨h1, h2⟩ := h i (List.mem_cons_self _ _)
    have hr : row[i]? = some row[i] := List.getElem?_eq_getElem h1
    have hv : values[i + 10]? = some values[i + 10] := List.getElem?_eq_getElem h2
    have hrD : row.getD i [] = row[i] := by simp [List.getD, hr]
    have hvD : values.getD (i + 10) 0 = values[i + 10] := by simp [List.getD, hv]
    have e : tally row values (i :: idxs) m
        = tally row values idxs (mapAssign m (row.getD i []) (values.getD (i + 10) 0)) := rfl
    simp only [tallyLoop, hr, hv]
    rw [ih _ (fun j hj => h j (List.mem_cons_of_mem _ hj)), e, hrD, hvD]

theorem tallyLoop_error {V : Type} (row : List GoString) (values : List V) :
    ∀ (idxs : List Nat) (m : List (GoString × V)),
      (∃ i ∈ idxs, ¬ (i < row.length ∧ i + 10 < values.length)) →
      ∃ e, tallyLoop row values idxs m = .error e ∧ e.isShape = true := by
  intro idxs
  induction idxs with
  | nil => intro m h; simp at h
  | cons i idxs ih =>
    intro m h
    cases hv : values[i + 10]? with
    | none =>
      exact ⟨.indexOutOfRange (i + 10) values.length, by simp [tallyLoop, hv], rfl⟩
    | some val =>
      cases hr : row[i]? with
      | none => exact ⟨.indexOutOfRange i row.length, by simp [tallyLoop, hr, hv], rfl⟩
      | some key =>
        have h1 : i < row.length := by
          by_contra hc
          rw [List.getElem?_eq_none (Nat.le_of_not_lt hc)] at hr
          cases hr
        have h2 : i + 10 < values.length := by
          by_contra hc
          rw [List.getElem?_eq_none (Nat.le_of_not_lt hc)] at hv
          cases hv
        obtain ⟨j, hj, hbad⟩ := h
        rcases List.mem_cons.1 hj with rfl | hj
        · exact absurd ⟨h1, h2⟩ hbad
        · obtain ⟨e, he, hs⟩ := ih (mapAssign m key val) ⟨j, hj, hbad⟩
          exact ⟨e, by simp [tallyLoop, hr, hv, he], hs⟩

theorem tallyLoop_error_shape {V : Type} (row : List GoString) (values : List V) :
    ∀ (idxs : List Nat) (m : List (GoString × V)) (e : Failure),
      tallyLoop row values idxs m = .error e → e.isShape = true := by
  intro idxs
  induction idxs with
  | nil => intro m e h; simp [tallyLoop] at h
  | cons i idxs ih =>
    intro m e h
    cases hv : values[i + 10]? with
    | none =>
      simp only [tallyLoop, hv, Except.error.injEq] at h
      subst h; rfl
    | some val =>
      cases hr : row[i]? with
      | none =>
        simp only [tallyLoop, hr, hv, Except.error.injEq] at h
        subst h; rfl
      | some key =>
        simp only [tallyLoop, hr, hv] at h
        exact ih _ e h

/-! ## The error samples -/

theorem sendErrors_eq {V : Type} (b : BrotherCollector) (lv : List GoString)
    (hb : b.ErrorCountMetric.variableLabels.length = lv.length + 1)
    (hlv : ∀ c ∈ lv, validString c = true) :
    ∀ (entries : List (GoString × V)) (last : GoString) (sent : List (Metric V)),
      sendErrors b lv.length entries (lv ++ [last]) sent
        = (sent ++ (entries.takeWhile (fun e => validString e.1)).map (errorSample b lv),
            (entries.find? (fun e => !validString e.1)).map
              (fun e => Failure.labelValueNotUTF8 e.1)) := by
  intro entries
  induction entries with
  | nil => intro last sent; simp [sendErrors]
  | cons e entries ih =>
    intro last sent
    obtain ⟨key, val⟩ := e
    have hset : (lv ++ [last]).set lv.length key = lv ++ [key] := by
      simp [List.set_append]
    have hlen : (lv ++ [key]).length = b.ErrorCountMetric.variableLabels.length := by
      rw [hb]; simp
    by_cases hk : validString key = true
    · have hall : ∀ c ∈ lv ++ [key], validString c = true := by
        intro c hc
        rcases List.mem_append.1 hc with h | h
        · exact hlv c h
        · rw [List.mem_singleton.1 h]; exact hk
      simp only [sendErrors, List.length_append, List.length_singleton, Nat.lt_succ_self,
        if_true, hset, MustNewConstMetric_ok _ .GaugeValue val _ hlen hall]
      rw [ih]
      simp [errorSample, List.takeWhile_cons, hk]
    · have hk' : validString key = false := by simpa using hk
      simp only [sendErrors, List.length_append, List.length_singleton, Nat.lt_succ_self,
        if_true, hset, MustNewConstMetric_bad_last _ .GaugeValue val lv key hlen hlv hk']
      simp [List.takeWhile_cons, hk']

theorem sendErrors_failure_kind {V : Type} (b : BrotherCollector) (n : Nat) :
    ∀ (entries : List (GoString × V)) (lvwe : List GoString) (sent : List (Metric V))
      (e : Failure),
      (sendErrors b n entries lvwe sent).2 = some e →
      e.isShape = true ∨ (∃ x y, e = .labelCardinality x y)
        ∨ ∃ val, e = .labelValueNotUTF8 val := by
  intro entries
  induction entries with
  | nil => intro lvwe sent e h; simp [sendErrors] at h
  | cons en entries ih =>
    intro lvwe sent e h
    obtain ⟨key, val⟩ := en
    by_cases hn : n < lvwe.length
    · cases hm : (MustNewConstMetric b.ErrorCountMetric .GaugeValue val (lvwe.set n key) :
          Except Failure (Metric V)) with
      | error e' =>
        simp only [sendErrors, hn, if_true, hm, Option.some.injEq] at h
        subst h
        exact Or.inr (MustNewConstMetric_error_kind _ _ _ _ _ hm)
      | ok m =>
        simp only [sendErrors, hn, if_true, hm] at h
        exact ih _ _ e h
    · simp only [sendErrors, hn, if_false, Option.some.injEq] at h
      subst h
      exact Or.inl rfl

/-! ## Facts about the collector and the statement table -/

theorem gaugeStatements_eq_zip (b : BrotherCollector) :
    gaugeStatements b = ((Describe b).take 33).zip (List.range' 8 33) := rfl

theorem gaugeStatements_length (b : BrotherCollector) : (gaugeStatements b).length = 33 := rfl

theorem gaugeStatements_pos (b : BrotherCollector) :
    ∀ p ∈ gaugeStatements b, 8 ≤ p.2 ∧ p.2 ≤ 40 := by
  intro p hp
  have h : p.2 ∈ (gaugeStatements b).map Prod.snd := List.mem_map.2 ⟨p, hp, rfl⟩
  have e : (gaugeStatements b).map Prod.snd = List.range' 8 33 := rfl
  rw [e, List.mem_range'_1] at h
  omega

theorem gaugeStatements_desc_mem (b : BrotherCollector) :
    ∀ p ∈ gaugeStatements b, p.1 ∈ Describe b := by
  intro p hp
  rw [gaugeStatements_eq_zip] at hp
  have h := (List.of_mem_zip hp).1
  exact List.mem_of_mem_take h

theorem gaugeStatements_getElem? (b : BrotherCollector) (k : Nat) (hk : k < 33) :
    ∃ d, (Describe b)[k]? = some d ∧ (gaugeStatements b)[k]? = some (d, 8 + k) := by
  interval_cases k <;> exact ⟨_, rfl, rfl⟩

theorem gaugeStatements_takeWhile (b : BrotherCollector) (n : Nat) :
    (gaugeStatements b).takeWhile (fun p => decide (p.2 < n))
      = (gaugeStatements b).take (min n 41 - 8) := by
  by_cases h : 41 ≤ n
  · have h1 : min n 41 - 8 = 33 := by omega
    rw [h1, List.takeWhile_eq_self_iff.2, List.take_of_length_le (by rfl)]
    intro p hp
    have := gaugeStatements_pos b p hp
    simp only [decide_eq_true_eq]
    omega
  · have h2 : n < 41 := Nat.lt_of_not_le h
    interval_cases n <;> rfl

theorem collector_gauge_labels (url : String) (timeout : Int) :
    ∀ p ∈ gaugeStatements (collector url timeout), p.1.variableLabels = labels := by
  intro p hp
  have h : p.1 ∈ (gaugeStatements (collector url timeout)).map Prod.fst :=
    List.mem_map.2 ⟨p, hp, rfl⟩
  have e : (gaugeStatements (collector url timeout)).map Prod.fst
      = (gaugeStatements (collector "" 0)).map Prod.fst := rfl
  rw [e] at h
  have key : ∀ d ∈ (gaugeStatements (collector "" 0)).map Prod.fst,
      d.variableLabels = labels := by decide
  exact key _ h

theorem collector_error_labels (url : String) (timeout : Int) :
    (collector url timeout).ErrorCountMetric.variableLabels = labels ++ ["error_message"] :=
  rfl

theorem collector_gauge_ne_error (url : String) (timeout : Int) :
    ∀ p ∈ gaugeStatements (collector url timeout),
      p.1 ≠ (collector url timeout).ErrorCountMetric := by
  intro p hp
  have h := collector_gauge_labels url timeout p hp
  intro hc
  rw [hc, collector_error_labels] at h
  revert h
  decide

theorem copyInto_replicate (l : List GoString) :
    copyInto (List.replicate l.length (goString "")) l = l := by
  simp [copyInto]

/-! ## What `Collect` does with a data row -/

theorem Collect_of_row {V : Type} [Zero V] (b : BrotherCollector) (env : Env V)
    (body : GoString) (records : List (List GoString)) (row : List GoString)
    (hfetch : env.httpGet b.url b.timeout = .response 200 body)
    (hread : env.readAll body = .ok records)
    (hrow : records[1]? = some row) :
    Collect b env = ⟨(collectRow b env row).1, true, (collectRow b env row).2⟩ := by
  have hlen : ¬ records.length ≤ 1 := by
    intro hc
    rw [List.getElem?_eq_none hc] at hrow
    cases hrow
  simp [Collect, hfetch, hread, hlen, hrow]

theorem labelsValid_iff (row : List GoString) :
    labelsValid row = true ↔ ∀ c ∈ row.take 8, validString c = true := by
  simp [labelsValid]

theorem codesValid_iff (row : List GoString) :
    codesValid row = true ↔ ∀ c ∈ codeRegion row, validString c = true := by
  simp [codesValid]

theorem gaugeStatements_cons (b : BrotherCollector) :
    gaugeStatements b = (b.memorySizeMetric, 8) :: (gaugeStatements b).tail := rfl

theorem row_cases (row : List GoString) :
    (row.length < 61 ∧ (labelsValid row = true ∨ row.length ≤ 8))
    ∨ (9 ≤ row.length ∧ labelsValid row = false)
    ∨ (61 ≤ row.length ∧ labelsValid row = true) := by
  cases h : labelsValid row
  · by_cases h9 : 9 ≤ row.length
    · exact Or.inr (Or.inl ⟨h9, rfl⟩)
    · exact Or.inl ⟨by omega, Or.inr (by omega)⟩
  · by_cases h61 : 61 ≤ row.length
    · exact Or.inr (Or.inr ⟨h61, rfl⟩)
    · exact Or.inl ⟨by omega, Or.inl rfl⟩

/-- A row of at least 61 cells whose cells 0..7 are valid UTF-8: all 33 gauges are
sent, then one error sample per map entry, in the order `range` visits the map, up
to the first entry whose code is not valid UTF-8. -/
theorem collectRow_long {V : Type} [Zero V] (url : String) (timeout : Int) (env : Env V)
    (row : List GoString) (hlen : 61 ≤ row.length) (hlabels : labelsValid row = true) :
    collectRow (collector url timeout) env row
      = ((gaugeStatements (collector url timeout)).map
            (gaugeSample (row.take 8) (convert env.parseFloat row))
          ++ ((env.rangeOrder
                (tally row (convert env.parseFloat row) (List.range' 41 10) [])).takeWhile
              (fun e => validString e.1)).map
            (errorSample (collector url timeout) (row.take 8)),
         ((env.rangeOrder
              (tally row (convert env.parseFloat row) (List.range' 41 10) [])).find?
            (fun e => !validString e.1)).map (fun e => Failure.labelValueNotUTF8 e.1)) := by
  have h8 : ¬ row.length < 8 := by omega
  have hvalid := (labelsValid_iff row).1 hlabels
  have htake : (row.take 8).length = 8 := by
    rw [List.length_take]; omega
  have hvlen := convert_length env.parseFloat row
  have hg := sendGauges_eq (row.take 8) (convert env.parseFloat row) hvalid
    (gaugeStatements (collector url timeout)) []
    (by
      intro p hp
      rw [collector_gauge_labels url timeout p hp, htake]
      rfl)
  have hall : ∀ p ∈ gaugeStatements (collector url timeout),
      p.2 < (convert env.parseFloat row).length := by
    intro p hp
    have := gaugeStatements_pos _ p hp
    omega
  have htw : (gaugeStatements (collector url timeout)).takeWhile
      (fun p => decide (p.2 < (convert env.parseFloat row).length))
      = gaugeStatements (collector url timeout) := by
    rw [List.takeWhile_eq_self_iff]
    intro p hp
    simpa using hall p hp
  have hfind : (gaugeStatements (collector url timeout)).find?
      (fun p => !decide (p.2 < (convert env.parseFloat row).length)) = none := by
    rw [List.find?_eq_none]
    intro p hp
    simpa using hall p hp
  rw [htw, hfind] at hg
  have ht := tallyLoop_ok row (convert env.parseFloat row) (List.range' 41 10) []
    (by
      intro i hi
      rw [List.mem_range'_1] at hi
      omega)
  have he := sendErrors_eq (collector url timeout) (row.take 8)
    (by rw [collector_error_labels, htake]; rfl) hvalid
    (env.rangeOrder (tally row (convert env.parseFloat row) (List.range' 41 10) []))
    (goString "CHANGEME")
    ([] ++ (gaugeStatements (collector url timeout)).map
      (gaugeSample (row.take 8) (convert env.parseFloat row)))
  have hidx : (row.take 8 ++ [goString "CHANGEME"]).length - 1 = (row.take 8).length := by simp
  simp only [collectRow, h8, if_false, hg, Option.map_none', ht, copyInto_replicate, hidx, he]
  rfl

/-- A row of at least 9 cells with a cell among 0..7 that is not valid UTF-8: the
first gauge statement fails inside `MustNewConstMetric` and nothing is sent. -/
theorem collectRow_badLabels {V : Type} [Zero V] (url : String) (timeout : Int) (env : Env V)
    (row : List GoString) (hlen : 9 ≤ row.length) (hlabels : labelsValid row = false) :
    ∃ val, collectRow (collector url timeout) env row
      = ([], some (.labelValueNotUTF8 val)) := by
  have h8 : ¬ row.length < 8 := by omega
  have hbad : ¬ ∀ c ∈ row.take 8, validString c = true := by
    rw [← labelsValid_iff, hlabels]
    simp
  have htake : (row.take 8).length = 8 := by
    rw [List.length_take]; omega
  have hvlen := convert_length env.parseFloat row
  obtain ⟨val, hval⟩ := sendGauges_bad (row.take 8) (convert env.parseFloat row) hbad
    (collector url timeout).memorySizeMetric 8 (gaugeStatements (collector url timeout)).tail
    ([] : List (Metric V)) (by rw [htake]; rfl) (by omega)
  rw [← gaugeStatements_cons] at hval
  exact ⟨val, by simp only [collectRow, h8, if_false, hval]⟩

/-- A row of fewer than 61 cells whose cells 0..7 are valid UTF-8 (or which has at
most 8 cells): the gauges whose position exists are sent, then an index is out of
range. -/
theorem collectRow_short {V : Type} [Zero V] (url : String) (timeout : Int) (env : Env V)
    (row : List GoString) (hlen : row.length < 61)
    (hok : labelsValid row = true ∨ row.length ≤ 8) :
    (collectRow (collector url timeout) env row).1
        = ((gaugeStatements (collector url timeout)).take (min row.length 41 - 8)).map
            (gaugeSample (row.take 8) (convert env.parseFloat row))
      ∧ ∃ e, (collectRow (collector url timeout) env row).2 = some e ∧ e.isShape = true := by
  have hvlen := convert_length env.parseFloat row
  by_cases h8 : row.length < 8
  · have h0 : min row.length 41 - 8 = 0 := by omega
    simp only [collectRow, h8, if_true, h0, List.take_zero, List.map_nil, true_and]
    exact ⟨_, rfl, rfl⟩
  · by_cases h88 : row.length = 8
    · have h0 : min row.length 41 - 8 = 0 := by omega
      have hget : (convert env.parseFloat row)[8]? = none :=
        List.getElem?_eq_none (by omega)
      have hsg : sendGauges (row.take 8) (convert env.parseFloat row)
          (gaugeStatements (collector url timeout)) ([] : List (Metric V))
          = ([], some (.indexOutOfRange 8 (convert env.parseFloat row).length)) := by
        rw [gaugeStatements_cons]
        simp only [sendGauges, hget]
      simp only [collectRow, h8, if_false, hsg, h0, List.take_zero, List.map_nil, true_and]
      exact ⟨_, rfl, rfl⟩
    · have hlabels : labelsValid row = true := by
        rcases hok with h | h
        · exact h
        · omega
      have hvalid := (labelsValid_iff row).1 hlabels
      have htake : (row.take 8).length = 8 := by
        rw [List.length_take]; omega
      have hg := sendGauges_eq (row.take 8) (convert env.parseFloat row) hvalid
        (gaugeStatements (collector url timeout)) []
        (by
          intro p hp
          rw [collector_gauge_labels url timeout p hp, htake]
          rfl)
      rw [gaugeStatements_takeWhile, hvlen] at hg
      by_cases h41 : row.length < 41
      · have hex : ∃ p ∈ gaugeStatements (collector url timeout), ¬ p.2 < row.length := by
          have hk : row.length - 8 < 33 := by omega
          obtain ⟨d, _, hd⟩ := gaugeStatements_getElem? (collector url timeout) _ hk
          refine ⟨(d, 8 + (row.length - 8)), List.getElem?_mem hd, ?_⟩
          simp only
          omega
        cases hf : (gaugeStatements (collector url timeout)).find?
            (fun p => !decide (p.2 < row.length)) with
        | none =>
          rw [List.find?_eq_none] at hf
          obtain ⟨p, hp, hbad⟩ := hex
          have := hf p hp
          simp only [Bool.not_eq_true, Bool.not_eq_false_eq_eq_true, decide_eq_true_eq,
            Bool.not_eq_eq_eq_not, Bool.not_true, decide_eq_false_iff_not, not_not] at this
          exact absurd this hbad
        | some q =>
          rw [hf] at hg
          simp only [collectRow, h8, if_false, hg, Option.map_some', List.nil_append, true_and]
          exact ⟨_, rfl, rfl⟩
      · have hfind : (gaugeStatements (collector url timeout)).find?
            (fun p => !decide (p.2 < row.length)) = none := by
          rw [List.find?_eq_none]
          intro p hp
          have := gaugeStatements_pos _ p hp
          simp only [Bool.not_eq_true, Bool.not_eq_false_eq_eq_true, decide_eq_true_eq,
            Bool.not_eq_eq_eq_not, Bool.not_true, decide_eq_false_iff_not, not_not]
          omega
        rw [hfind] at hg
        obtain ⟨e, he, hs⟩ := tallyLoop_error row (convert env.parseFloat row)
          (List.range' 41 10) [] ⟨50, by simp [List.mem_range'_1], by omega⟩
        simp only [collectRow, h8, if_false, hg, Option.map_none', he, List.nil_append,
          true_and]
        exact ⟨e, rfl, hs⟩

/-! ## Gauge and error samples among the metrics sent -/

theorem gauge_initial_getElem? {V : Type} [Zero V] (b : BrotherCollector) (lv : List GoString)
    (values : List V) (j k : Nat) (hk : k < j) (hj : j ≤ 33) (hv : 8 + k < values.length)
    (E : List (Metric V)) :
    ∃ s, (((gaugeStatements b).take j).map (gaugeSample lv values) ++ E)[k]? = some s ∧
      (Describe b)[k]? = some s.desc ∧ s.valueType = .GaugeValue ∧
      values[8 + k]? = some s.value ∧ s.labelValues = lv := by
  obtain ⟨d, hd, hg⟩ := gaugeStatements_getElem? b k (by omega)
  refine ⟨gaugeSample lv values (d, 8 + k), ?_, hd, rfl, ?_, rfl⟩
  · have hlen : k < (((gaugeStatements b).take j).map (gaugeSample lv values)).length := by
      rw [List.length_map, List.length_take, gaugeStatements_length]
      omega
    rw [List.getElem?_append_left hlen, List.getElem?_map, List.getElem?_take_of_lt hk, hg]
    rfl
  · simp [gaugeSample, List.getD, List.getElem?_eq_getElem hv]

theorem samples_split {V : Type} [Zero V] (url : String) (timeout : Int) (lv : List GoString)
    (values : List V) (j : Nat) (entries : List (GoString × V)) :
    gaugeSamples (collector url timeout)
        (((gaugeStatements (collector url timeout)).take j).map (gaugeSample lv values)
          ++ entries.map (errorSample (collector url timeout) lv))
      = ((gaugeStatements (collector url timeout)).take j).map (gaugeSample lv values)
    ∧ errorSamples (collector url timeout)
        (((gaugeStatements (collector url timeout)).take j).map (gaugeSample lv values)
          ++ entries.map (errorSample (collector url timeout) lv))
      = entries.map (errorSample (collector url timeout) lv) := by
  have hG : ∀ s ∈ ((gaugeStatements (collector url timeout)).take j).map
      (gaugeSample lv values), s.desc ≠ (collector url timeout).ErrorCountMetric := by
    intro s hs
    obtain ⟨p, hp, rfl⟩ := List.mem_map.1 hs
    exact collector_gauge_ne_error url timeout p (List.mem_of_mem_take hp)
  have hE : ∀ s ∈ entries.map (errorSample (collector url timeout) lv),
      s.desc = (collector url timeout).ErrorCountMetric := by
    intro s hs
    obtain ⟨e, _, rfl⟩ := List.mem_map.1 hs
    rfl
  constructor
  · rw [gaugeSamples, List.filter_append, List.filter_eq_self.2, List.filter_eq_nil_iff.2,
      List.append_nil]
    · intro s hs
      simpa using hE s hs
    · intro s hs
      simpa using hG s hs
  · rw [errorSamples, List.filter_append, List.filter_eq_nil_iff.2, List.filter_eq_self.2,
      List.nil_append]
    · intro s hs
      simpa using hE s hs
    · intro s hs
      simpa using hG s hs

theorem take_all_gaugeStatements (b : BrotherCollector) :
    (gaugeStatements b).take 33 = gaugeStatements b := rfl

/-- The outcome of `Collect` for a long row with valid cells 0..7. -/
theorem Collect_long {V : Type} [Zero V] (url : String) (timeout : Int) (env : Env V)
    (body : GoString) (records : List (List GoString)) (row : List GoString)
    (hfetch : env.httpGet url timeout = .response 200 body)
    (hread : env.readAll body = .ok records)
    (hrow : records[1]? = some row) (hlen : 61 ≤ row.length)
    (hlabels : labelsValid row = true) :
    Collect (collector url timeout) env
      = ⟨((gaugeStatements (collector url timeout)).take 33).map
            (gaugeSample (row.take 8) (convert env.parseFloat row))
          ++ ((env.rangeOrder
                (tally row (convert env.parseFloat row) (List.range' 41 10) [])).takeWhile
              (fun e => validString e.1)).map
            (errorSample (collector url timeout) (row.take 8)), true,
          ((env.rangeOrder
              (tally row (convert env.parseFloat row) (List.range' 41 10) [])).find?
            (fun e => !validString e.1)).map (fun e => Failure.labelValueNotUTF8 e.1)⟩ := by
  rw [Collect_of_row (collector url timeout) env body records row hfetch hread hrow,
    collectRow_long url timeout env row hlen hlabels, take_all_gaugeStatements]

/-- The outcome of `Collect` for a row of at least 9 cells with a cell among 0..7
that is not valid UTF-8. -/
theorem Collect_badLabels {V : Type} [Zero V] (url : String) (timeout : Int) (env : Env V)
    (body : GoString) (records : List (List GoString)) (row : List GoString)
    (hfetch : env.httpGet url timeout = .response 200 body)
    (hread : env.readAll body = .ok records)
    (hrow : records[1]? = some row) (hlen : 9 ≤ row.length)
    (hlabels : labelsValid row = false) :
    ∃ val, Collect (collector url timeout) env = ⟨[], true, some (.labelValueNotUTF8 val)⟩ := by
  obtain ⟨val, hval⟩ := collectRow_badLabels url timeout env row hlen hlabels
  exact ⟨val, by
    rw [Collect_of_row (collector url timeout) env body records row hfetch hread hrow, hval]⟩

/-- The short-row outcome of `Collect`. -/
theorem Collect_short {V : Type} [Zero V] (url : String) (timeout : Int) (env : Env V)
    (body : GoString) (records : List (List GoString)) (row : List GoString)
    (hfetch : env.httpGet url timeout = .response 200 body)
    (hread : env.readAll body = .ok records)
    (hrow : records[1]? = some row) (hlen : row.length < 61)
    (hok : labelsValid row = true ∨ row.length ≤ 8) :
    (Collect (collector url timeout) env).sent
        = ((gaugeStatements (collector url timeout)).take (min row.length 41 - 8)).map
            (gaugeSample (row.take 8) (convert env.parseFloat row))
      ∧ ∃ e, (Collect (collector url timeout) env).failure = some e ∧ e.isShape = true := by
  rw [Collect_of_row (collector url timeout) env body records row hfetch hread hrow]
  exact collectRow_short url timeout env row hlen hok

/-! ## The branches of `Collect` before the data row -/

theorem Collect_requestError {V : Type} [Zero V] (b : BrotherCollector) (env : Env V)
    (err : String) (hf : env.httpGet b.url b.timeout = .requestError err) :
    Collect b env = ⟨[], false, some (.request err)⟩ := by
  simp [Collect, hf]

theorem Collect_doError {V : Type} [Zero V] (b : BrotherCollector) (env : Env V)
    (err : String) (hf : env.httpGet b.url b.timeout = .doError err) :
    Collect b env = ⟨[], false, some (.transport err)⟩ := by
  simp [Collect, hf]

theorem Collect_status {V : Type} [Zero V] (b : BrotherCollector) (env : Env V)
    (statusCode : Int) (body : GoString)
    (hf : env.httpGet b.url b.timeout = .response statusCode body) (hs : statusCode ≠ 200) :
    Collect b env
      = ⟨[], false, some (.status ("did not get a 200 OK: " ++ toString statusCode))⟩ := by
  simp [Collect, hf, hs]

theorem Collect_csv {V : Type} [Zero V] (b : BrotherCollector) (env : Env V)
    (body : GoString) (err : String) (hf : env.httpGet b.url b.timeout = .response 200 body)
    (hr : env.readAll body = .error err) :
    Collect b env = ⟨[], true, some (.csv err)⟩ := by
  simp [Collect, hf, hr]

theorem Collect_noRows {V : Type} [Zero V] (b : BrotherCollector) (env : Env V)
    (body : GoString) (records : List (List GoString))
    (hf : env.httpGet b.url b.timeout = .response 200 body)
    (hr : env.readAll body = .ok records) (hl : records.length ≤ 1) :
    Collect b env
      = ⟨[], true, some (.noRows ("no printer rows found. found " ++
          toString records.length ++ " rows in total"))⟩ := by
  simp [Collect, hf, hr, hl]

/-- When no data row is reached, `Collect` sends nothing and fails with one of the
failures of lines 146-169. -/
theorem Collect_no_row {V : Type} [Zero V] (b : BrotherCollector) (env : Env V)
    (h : ¬ ∃ body records row, env.httpGet b.url b.timeout = .response 200 body ∧
      env.readAll body = .ok records ∧ records[1]? = some row) :
    (Collect b env).sent = [] ∧
      ∃ e, (Collect b env).failure = some e ∧ e.isShape = false ∧
        ∀ x y, e ≠ .labelCardinality x y := by
  cases hf : env.httpGet b.url b.timeout with
  | requestError err =>
    rw [Collect_requestError b env err hf]
    exact ⟨rfl, _, rfl, rfl, fun _ _ hc => by cases hc⟩
  | doError err =>
    rw [Collect_doError b env err hf]
    exact ⟨rfl, _, rfl, rfl, fun _ _ hc => by cases hc⟩
  | response statusCode body =>
    by_cases hs : statusCode = 200
    · subst hs
      cases hr : env.readAll body with
      | error err =>
        rw [Collect_csv b env body err hf hr]
        exact ⟨rfl, _, rfl, rfl, fun _ _ hc => by cases hc⟩
      | ok records =>
        by_cases hl : records.length ≤ 1
        · rw [Collect_noRows b env body records hf hr hl]
          exact ⟨rfl, _, rfl, rfl, fun _ _ hc => by cases hc⟩
        · exfalso
          have h1 : 1 < records.length := Nat.lt_of_not_le hl
          exact h ⟨body, records, records[1], hf, hr, List.getElem?_eq_getElem h1⟩
    · rw [Collect_status b env statusCode body hf hs]
      exact ⟨rfl, _, rfl, rfl, fun _ _ hc => by cases hc⟩

theorem collectRow_failure_kind {V : Type} [Zero V] (b : BrotherCollector) (env : Env V)
    (row : List GoString) (e : Failure) (h : (collectRow b env row).2 = some e) :
    e.isShape = true ∨ (∃ x y, e = .labelCardinality x y)
      ∨ ∃ val, e = .labelValueNotUTF8 val := by
  unfold collectRow at h
  by_cases h8 : row.length < 8
  · simp only [h8, if_true, Option.some.injEq] at h
    subst h
    exact Or.inl rfl
  · simp only [h8, if_false] at h
    rcases hsg : sendGauges (row.take 8) (convert env.parseFloat row) (gaugeStatements b) []
      with ⟨sent, _ | e'⟩
    · rw [hsg] at h
      simp only at h
      cases ht : tallyLoop row (convert env.parseFloat row) (List.range' 41 10) [] with
      | error e'' =>
        rw [ht] at h
        simp only [Option.some.injEq] at h
        subst h
        exact Or.inl (tallyLoop_error_shape _ _ _ _ _ ht)
      | ok m =>
        rw [ht] at h
        exact sendErrors_failure_kind _ _ _ _ _ _ h
    · rw [hsg] at h
      simp only [Option.some.injEq] at h
      subst h
      apply sendGauges_failure_kind (row.take 8) (convert env.parseFloat row)
        (gaugeStatements b) [] e'
      rw [hsg]

/-! ## The error-code region and the finished map -/

theorem mem_codeRegion_iff (row : List GoString) (c : GoString) :
    c ∈ codeRegion row ↔ ∃ i, 41 ≤ i ∧ i ≤ 50 ∧ row[i]? = some c := by
  unfold codeRegion
  rw [List.mem_iff_getElem?]
  constructor
  · rintro ⟨n, hn⟩
    rw [List.getElem?_take] at hn
    by_cases h10 : n < 10
    · rw [if_pos h10, List.getElem?_drop] at hn
      exact ⟨41 + n, by omega, by omega, hn⟩
    · rw [if_neg h10] at hn
      cases hn
  · rintro ⟨i, h1, h2, h3⟩
    refine ⟨i - 41, ?_⟩
    rw [List.getElem?_take, if_pos (by omega), List.getElem?_drop]
    have : 41 + (i - 41) = i := by omega
    rw [this]
    exact h3

theorem codeRegion_length (row : List GoString) (hlen : 51 ≤ row.length) :
    (codeRegion row).length = 10 := by
  unfold codeRegion
  rw [List.length_take, List.length_drop]
  omega

theorem getD_eq_iff_getElem? (row : List GoString) (i : Nat) (hi : i < row.length)
    (c : GoString) : row.getD i [] = c ↔ row[i]? = some c := by
  simp [List.getD, List.getElem?_eq_getElem hi]

theorem tally_keys_iff {V : Type} [Zero V] (row : List GoString) (values : List V)
    (hlen : 51 ≤ row.length) (c : GoString) :
    c ∈ (tally row values (List.range' 41 10) []).map Prod.fst ↔ c ∈ codeRegion row := by
  rw [tally_keys_mem, mem_codeRegion_iff]
  simp only [List.map_nil, List.not_mem_nil, or_false]
  constructor
  · rintro ⟨i, hi, hc⟩
    rw [List.mem_range'_1] at hi
    exact ⟨i, hi.1, by omega, (getD_eq_iff_getElem? row i (by omega) c).1 hc⟩
  · rintro ⟨i, h1, h2, hc⟩
    exact ⟨i, by rw [List.mem_range'_1]; omega, (getD_eq_iff_getElem? row i (by omega) c).2 hc⟩

theorem tally_entry_iff {V : Type} [Zero V] (row : List GoString) (values : List V)
    (hlen : 61 ≤ row.length) (hv : values.length = row.length) (c : GoString) (x : V) :
    (c, x) ∈ tally row values (List.range' 41 10) []
      ↔ ∃ p, LastCodePosition row c p ∧ values[p + 10]? = some x := by
  rw [tally_mem row values c x (List.range' 41 10) [] (List.pairwise_lt_range' 41 10)
    (by simp)]
  simp only [List.not_mem_nil, and_false, or_false]
  constructor
  · rintro ⟨i, hi, hc, hx, hlast⟩
    rw [List.mem_range'_1] at hi
    refine ⟨i, ⟨hi.1, by omega, (getD_eq_iff_getElem? row i (by omega) c).1 hc, ?_⟩, ?_⟩
    · intro q hq1 hq2 hqc
      exact hlast q (by rw [List.mem_range'_1]; omega) (by omega)
        ((getD_eq_iff_getElem? row q (by omega) c).2 hqc)
    · have hi10 : i + 10 < values.length := by omega
      have hD : values.getD (i + 10) 0 = values[i + 10] := by
        simp [List.getD, List.getElem?_eq_getElem hi10]
      rw [List.getElem?_eq_getElem hi10, ← hD, hx]
  · rintro ⟨p, ⟨h1, h2, hc, hlast⟩, hx⟩
    refine ⟨p, by rw [List.mem_range'_1]; omega,
      (getD_eq_iff_getElem? row p (by omega) c).2 hc, ?_, ?_⟩
    · simp [List.getD, hx]
    · intro q hq hlt hqc
      rw [List.mem_range'_1] at hq
      exact hlast q (by omega) (by omega) ((getD_eq_iff_getElem? row q (by omega) c).1 hqc)

theorem tally_length {V : Type} [Zero V] (row : List GoString) (values : List V)
    (hlen : 51 ≤ row.length) :
    (tally row values (List.range' 41 10) []).length = (codeRegion row).dedup.length := by
  have hnd := tally_nodup row values (List.range' 41 10) [] (by simp)
  have hperm : ((tally row values (List.range' 41 10) []).map Prod.fst).Perm
      (codeRegion row).dedup := by
    rw [List.perm_ext_iff_of_nodup hnd (List.nodup_dedup _)]
    intro c
    rw [tally_keys_iff row values hlen, List.mem_dedup]
  rw [← hperm.length_eq, List.length_map]

theorem dedup_length_split (l : List GoString) :
    l.dedup.length
      = (l.filter (fun c => decide (c ≠ []))).dedup.length + (if [] ∈ l then 1 else 0) := by
  rw [← List.card_toFinset, ← List.card_toFinset, List.toFinset_filter]
  have hf : Finset.filter (fun c => decide (c ≠ []) = true) l.toFinset
      = l.toFinset.erase [] := by
    ext c
    simp [Finset.mem_erase, and_comm]
  rw [hf]
  by_cases h : [] ∈ l
  · have hm : [] ∈ l.toFinset := List.mem_toFinset.2 h
    rw [if_pos h, Finset.card_erase_of_mem hm]
    have : 0 < l.toFinset.card := Finset.card_pos.2 ⟨_, hm⟩
    omega
  · have hm : [] ∉ l.toFinset := fun hc => h (List.mem_toFinset.1 hc)
    rw [if_neg h, Finset.erase_eq_of_not_mem hm]
    rfl

theorem filter_key_singleton {V : Type} (c : GoString) (x : V) :
    ∀ l : List (GoString × V), (l.map Prod.fst).Nodup → (c, x) ∈ l →
      l.filter (fun e => decide (e.1 = c)) = [(c, x)] := by
  intro l
  induction l with
  | nil => intro _ h; cases h
  | cons e l ih =>
    intro hnd hmem
    obtain ⟨k, v⟩ := e
    simp only [List.map_cons, List.nodup_cons] at hnd
    rcases List.mem_cons.1 hmem with h | h
    · cases h
      have hrest : l.filter (fun e => decide (e.1 = c)) = [] := by
        rw [List.filter_eq_nil_iff]
        intro a ha hc
        simp only [decide_eq_true_eq] at hc
        exact hnd.1 (List.mem_map.2 ⟨a, ha, hc⟩)
      simp [List.filter_cons, hrest]
    · have hk : k ≠ c := by
        rintro rfl
        exact hnd.1 (List.mem_map.2 ⟨(k, x), h, rfl⟩)
      simp only [List.filter_cons, hk, decide_False, Bool.false_eq_true, if_false]
      exact ih hnd.2 h

/-- The error samples of a long row, filtered by their error label. -/
theorem errorSample_filter {V : Type} (b : BrotherCollector) (lv : List GoString) (c : GoString)
    (entries : List (GoString × V)) :
    (entries.map (errorSample b lv)).filter (fun s => decide (s.labelValues.getLast? = some c))
      = (entries.filter (fun e => decide (e.1 = c))).map (errorSample b lv) := by
  rw [List.filter_map]
  congr 1
  apply List.filter_congr
  intro e _
  simp [errorSample]

/-- Every entry `range` visits has a code of the region, hence a valid one when the
region is valid. -/
theorem rangeOrder_keys_valid {V : Type} [Zero V] (env : Env V) (row : List GoString)
    (hlen : 51 ≤ row.length) (horder : ∀ m, (env.rangeOrder m).Perm m)
    (hcodes : codesValid row = true) :
    ∀ e ∈ env.rangeOrder (tally row (convert env.parseFloat row) (List.range' 41 10) []),
      validString e.1 = true := by
  intro e he
  have hT := (horder _).mem_iff.1 he
  have hk : e.1 ∈ (tally row (convert env.parseFloat row) (List.range' 41 10) []).map
      Prod.fst := List.mem_map.2 ⟨e, hT, rfl⟩
  exact (codesValid_iff row).1 hcodes _
    ((tally_keys_iff row (convert env.parseFloat row) hlen e.1).1 hk)

/-- The outcome of `Collect` for a long row with valid cells 0..7 and 41..50. -/
theorem Collect_long_valid {V : Type} [Zero V] (url : String) (timeout : Int) (env : Env V)
    (body : GoString) (records : List (List GoString)) (row : List GoString)
    (hfetch : env.httpGet url timeout = .response 200 body)
    (hread : env.readAll body = .ok records)
    (hrow : records[1]? = some row) (hlen : 61 ≤ row.length)
    (hlabels : labelsValid row = true) (hcodes : codesValid row = true)
    (horder : ∀ m, (env.rangeOrder m).Perm m) :
    Collect (collector url timeout) env
      = ⟨((gaugeStatements (collector url timeout)).take 33).map
            (gaugeSample (row.take 8) (convert env.parseFloat row))
          ++ (env.rangeOrder
                (tally row (convert env.parseFloat row) (List.range' 41 10) [])).map
            (errorSample (collector url timeout) (row.take 8)), true, none⟩ := by
  have hkeys := rangeOrder_keys_valid env row (by omega) horder hcodes
  have htw : (env.rangeOrder
      (tally row (convert env.parseFloat row) (List.range' 41 10) [])).takeWhile
        (fun e => validString e.1)
      = env.rangeOrder (tally row (convert env.parseFloat row) (List.range' 41 10) []) := by
    rw [List.takeWhile_eq_self_iff]
    exact hkeys
  have hfind : (env.rangeOrder
      (tally row (convert env.parseFloat row) (List.range' 41 10) [])).find?
        (fun e => !validString e.1) = none := by
    rw [List.find?_eq_none]
    intro e he
    simp [hkeys e he]
  rw [Collect_long url timeout env body records row hfetch hread hrow hlen hlabels, htw, hfind]
  rfl

theorem tally_keys_perm {V : Type} [Zero V] (row : List GoString) (values : List V)
    (hlen : 51 ≤ row.length) :
    ((tally row values (List.range' 41 10) []).map Prod.fst).Perm (codeRegion row).dedup := by
  have hnd := tally_nodup row values (List.range' 41 10) [] (by simp)
  rw [List.perm_ext_iff_of_nodup hnd (List.nodup_dedup _)]
  intro c
  rw [tally_keys_iff row values hlen, List.mem_dedup]

theorem errorCode_errorSample {V : Type} (b : BrotherCollector) (lv : List GoString)
    (e : GoString × V) : errorCode (errorSample b lv e) = e.1 := by
  simp [errorCode, errorSample]

theorem map_errorCode_errorSample {V : Type} (b : BrotherCollector) (lv : List GoString)
    (entries : List (GoString × V)) :
    (entries.map (errorSample b lv)).map errorCode = entries.map Prod.fst := by
  rw [List.map_map]
  apply List.map_congr_left
  intro e _
  exact errorCode_errorSample b lv e

/-- The error samples `Collect` sends for a long row with valid cells 0..7 and
41..50: one per map entry. -/
theorem errorSamples_long_valid {V : Type} [Zero V] (url : String) (timeout : Int)
    (env : Env V) (body : GoString) (records : List (List GoString)) (row : List GoString)
    (hfetch : env.httpGet url timeout = .response 200 body)
    (hread : env.readAll body = .ok records)
    (hrow : records[1]? = some row) (hlen : 61 ≤ row.length)
    (hlabels : labelsValid row = true) (hcodes : codesValid row = true)
    (horder : ∀ m, (env.rangeOrder m).Perm m) :
    errorSamples (collector url timeout) (Collect (collector url timeout) env).sent
      = (env.rangeOrder (tally row (convert env.parseFloat row) (List.range' 41 10) [])).map
          (errorSample (collector url timeout) (row.take 8)) := by
  rw [Collect_long_valid url timeout env body records row hfetch hread hrow hlen hlabels
    hcodes horder]
  exact (samples_split url timeout (row.take 8) (convert env.parseFloat row) 33 _).2

/-- A short row sends no error sample. -/
theorem errorSamples_short {V : Type} [Zero V] (url : String) (timeout : Int) (env : Env V)
    (body : GoString) (records : List (List GoString)) (row : List GoString)
    (hfetch : env.httpGet url timeout = .response 200 body)
    (hread : env.readAll body = .ok records)
    (hrow : records[1]? = some row) (hlen : row.length < 61) :
    errorSamples (collector url timeout) (Collect (collector url timeout) env).sent = []
    ∧ (Collect (collector url timeout) env).failure ≠ none := by
  rcases row_cases row with ⟨_, hok⟩ | ⟨h9, hbad⟩ | ⟨h61, _⟩
  · obtain ⟨hsent, e, he, _⟩ := Collect_short url timeout env body records row hfetch hread
      hrow hlen hok
    have hsplit := samples_split url timeout (row.take 8) (convert env.parseFloat row)
      (min row.length 41 - 8) ([] : List (GoString × V))
    simp only [List.map_nil, List.append_nil] at hsplit
    rw [hsent, he]
    exact ⟨hsplit.2, fun hc => by cases hc⟩
  · obtain ⟨val, hval⟩ := Collect_badLabels url timeout env body records row hfetch hread
      hrow h9 hbad
    rw [hval]
    exact ⟨rfl, fun hc => by cases hc⟩
  · omega

theorem errorCountMetric_mem_Describe (b : BrotherCollector) :
    b.ErrorCountMetric ∈ Describe b := by
  simp [Describe]

/-- Every metric the registered collector sends was built on an announced descriptor
with as many label values as the descriptor has label names: 9 on `ErrorCountMetric`,
8 on the others. -/
theorem sent_arity {V : Type} [Zero V] (url : String) (timeout : Int) (env : Env V) :
    ∀ s ∈ (Collect (collector url timeout) env).sent,
      s.desc ∈ Describe (collector url timeout)
      ∧ s.labelValues.length = s.desc.variableLabels.length
      ∧ ((s.desc = (collector url timeout).ErrorCountMetric ∧ s.labelValues.length = 9)
        ∨ (s.desc ≠ (collector url timeout).ErrorCountMetric ∧ s.labelValues.length = 8)) := by
  have hgauge : ∀ (row : List GoString) (j : Nat), 8 ≤ row.length →
      ∀ s ∈ ((gaugeStatements (collector url timeout)).take j).map
          (gaugeSample (row.take 8) (convert env.parseFloat row)),
        s.desc ∈ Describe (collector url timeout)
        ∧ s.labelValues.length = s.desc.variableLabels.length
        ∧ ((s.desc = (collector url timeout).ErrorCountMetric ∧ s.labelValues.length = 9)
          ∨ (s.desc ≠ (collector url timeout).ErrorCountMetric ∧ s.labelValues.length = 8)) := by
    intro row j h8 s hs
    obtain ⟨p, hp, rfl⟩ := List.mem_map.1 hs
    have hp' := List.mem_of_mem_take hp
    have htake : (row.take 8).length = 8 := by
      rw [List.length_take]; omega
    refine ⟨gaugeStatements_desc_mem _ p hp', ?_,
      Or.inr ⟨collector_gauge_ne_error url timeout p hp', htake⟩⟩
    show (row.take 8).length = p.1.variableLabels.length
    rw [collector_gauge_labels url timeout p hp', htake]
    rfl
  intro s hs
  by_cases hex : ∃ body records row, env.httpGet url timeout = .response 200 body ∧
      env.readAll body = .ok records ∧ records[1]? = some row
  · obtain ⟨body, records, row, h1, h2, h3⟩ := hex
    rcases row_cases row with ⟨hlt, hok⟩ | ⟨h9, hbad⟩ | ⟨h61, hlabels⟩
    · obtain ⟨hsent, _⟩ := Collect_short url timeout env body records row h1 h2 h3 hlt hok
      rw [hsent] at hs
      have h8 : 8 ≤ row.length := by
        by_contra hc
        have h0 : min row.length 41 - 8 = 0 := by omega
        rw [h0] at hs
        cases hs
      exact hgauge row _ h8 s hs
    · obtain ⟨val, hval⟩ := Collect_badLabels url timeout env body records row h1 h2 h3 h9 hbad
      rw [hval] at hs
      cases hs
    · rw [Collect_long url timeout env body records row h1 h2 h3 h61 hlabels] at hs
      rcases List.mem_append.1 hs with hs | hs
      · exact hgauge row 33 (by omega) s hs
      · obtain ⟨e, _, rfl⟩ := List.mem_map.1 hs
        have htake : (row.take 8).length = 8 := by
          rw [List.length_take]; omega
        have h9 : (row.take 8 ++ [e.1]).length = 9 := by
          rw [List.length_append, htake]; rfl
        exact ⟨errorCountMetric_mem_Describe _, h9, Or.inl ⟨rfl, h9⟩⟩
  · rw [(Collect_no_row (collector url timeout) env hex).1] at hs
    cases hs

/-- The failure of the registered collector, whatever the environment: none, one of
lines 146-169, an out-of-range one on a short row, or a label value that is not valid
UTF-8; never a wrong number of label values. -/
theorem never_labelCardinality {V : Type} [Zero V] (url : String) (timeout : Int)
    (env : Env V) (x y : Nat) :
    (Collect (collector url timeout) env).failure ≠ some (.labelCardinality x y) := by
  intro hc
  by_cases hex : ∃ body records row, env.httpGet url timeout = .response 200 body ∧
      env.readAll body = .ok records ∧ records[1]? = some row
  · obtain ⟨body, records, row, h1, h2, h3⟩ := hex
    rcases row_cases row with ⟨hlt, hok⟩ | ⟨h9, hbad⟩ | ⟨h61, hlabels⟩
    · obtain ⟨_, e, he, hs⟩ := Collect_short url timeout env body records row h1 h2 h3 hlt hok
      rw [he] at hc
      cases hc
      cases hs
    · obtain ⟨val, hval⟩ := Collect_badLabels url timeout env body records row h1 h2 h3 h9 hbad
      rw [hval] at hc
      cases hc
    · rw [Collect_long url timeout env body records row h1 h2 h3 h61 hlabels] at hc
      cases hf : (env.rangeOrder
          (tally row (convert env.parseFloat row) (List.range' 41 10) [])).find?
            (fun e => !validString e.1) with
      | none => rw [hf] at hc; cases hc
      | some e => rw [hf] at hc; cases hc
  · obtain ⟨_, e, he, _, hne⟩ := Collect_no_row (collector url timeout) env hex
    rw [he] at hc
    cases hc
    exact hne x y rfl

/-- A data row of at least 61 cells never gives an out-of-range failure. -/
theorem long_row_no_shape_failure {V : Type} [Zero V] (url : String) (timeout : Int) (env : Env V)
    (body : GoString) (records : List (List GoString)) (row : List GoString)
    (hfetch : env.httpGet url timeout = .response 200 body)
    (hread : env.readAll body = .ok records)
    (hrow : records[1]? = some row) (hlen : 61 ≤ row.length) (e : Failure)
    (he : (Collect (collector url timeout) env).failure = some e) :
    e.isShape = false := by
  rcases row_cases row with ⟨hlt, _⟩ | ⟨h9, hbad⟩ | ⟨_, hlabels⟩
  · omega
  · obtain ⟨val, hval⟩ := Collect_badLabels url timeout env body records row hfetch hread
      hrow h9 hbad
    rw [hval] at he
    cases he
    rfl
  · rw [Collect_long url timeout env body records row hfetch hread hrow hlen hlabels] at he
    cases hf : (env.rangeOrder
        (tally row (convert env.parseFloat row) (List.range' 41 10) [])).find?
          (fun e => !validString e.1) with
    | none => rw [hf] at he; cases he
    | some e' =>
      rw [hf] at he
      cases he
      rfl

/-! ## The claims -/

/-- C1 fails as stated: on a data row of 61 cells whose first cell is not valid
UTF-8, `Collect` sends no gauge sample and fails inside `MustNewConstMetric`. -/
theorem C1_counterexample :
    61 ≤ badLabelRow.length
    ∧ (Collect demoCollector
        (demoEnv [demoHeader, badLabelRow])).sent.length = 0
    ∧ (Collect demoCollector
        (demoEnv [demoHeader, badLabelRow])).failure = some (.labelValueNotUTF8 badString)
    ∧ ¬ ((gaugeSamples demoCollector
        (Collect demoCollector
          (demoEnv [demoHeader, badLabelRow])).sent).length = 33) := by
  decide

/-- C1, amended: for a decoded record set whose data row has at least 61 cells and
valid UTF-8 in cells 0..7, `Collect` sends exactly 33 gauge samples, they are the
first 33 metrics sent, in the order of the descriptors (`memorySizeMetric` first,
`Jam2SidedMetric` last); the k-th one has the k-th descriptor, the typed-row value
at position 8+k, and cells 0..7 of the raw row as label values. -/
theorem C1_gauge_samples {V : Type} [Zero V] (url : String) (timeout : Int) (env : Env V)
    (body : GoString) (records : List (List GoString)) (row : List GoString)
    (hfetch : env.httpGet url timeout = .response 200 body)
    (hread : env.readAll body = .ok records)
    (hrow : records[1]? = some row) (hlen : 61 ≤ row.length)
    (hlabels : labelsValid row = true) :
    (gaugeSamples (collector url timeout) (Collect (collector url timeout) env).sent).length = 33
    ∧ (Collect (collector url timeout) env).sent.take 33
        = gaugeSamples (collector url timeout) (Collect (collector url timeout) env).sent
    ∧ (Describe (collector url timeout))[0]? = some (collector url timeout).memorySizeMetric
    ∧ (Describe (collector url timeout))[32]? = some (collector url timeout).Jam2SidedMetric
    ∧ ∀ k, k < 33 → ∃ s, (Collect (collector url timeout) env).sent[k]? = some s ∧
        (Describe (collector url timeout))[k]? = some s.desc ∧
        s.valueType = .GaugeValue ∧
        (convert env.parseFloat row)[8 + k]? = some s.value ∧
        s.labelValues = row.take 8 ∧ s.labelValues.length = 8 := by
  have hC := Collect_long url timeout env body records row hfetch hread hrow hlen hlabels
  have hsplit := samples_split url timeout (row.take 8) (convert env.parseFloat row) 33
    ((env.rangeOrder (tally row (convert env.parseFloat row) (List.range' 41 10) [])).takeWhile
      (fun e => validString e.1))
  have hvlen := convert_length env.parseFloat row
  rw [hC]
  simp only [hsplit.1]
  refine ⟨by simp [gaugeStatements_length], ?_, rfl, rfl, ?_⟩
  · rw [List.take_left']
    simp [gaugeStatements_length]
  · intro k hk
    obtain ⟨s, h1, h2, h3, h4, h5⟩ := gauge_initial_getElem? (collector url timeout)
      (row.take 8) (convert env.parseFloat row) 33 k hk (le_refl _) (by omega)
      (((env.rangeOrder
          (tally row (convert env.parseFloat row) (List.range' 41 10) [])).takeWhile
        (fun e => validString e.1)).map (errorSample (collector url timeout) (row.take 8)))
    refine ⟨s, h1, h2, h3, h4, h5, ?_⟩
    rw [h5, List.length_take]
    omega

/-- C1 amended, exercised on the sample scrape. -/
theorem C1_gauge_samples_witness :
    (gaugeSamples demoCollector
      (Collect demoCollector
        (demoEnv [demoHeader, demoRow])).sent).length = 33 :=
  (C1_gauge_samples demoURL 10 (demoEnv [demoHeader, demoRow])
    (goString "body") [demoHeader, demoRow] demoRow rfl rfl rfl (by decide) (by decide)).1

/-- C10 fails as stated: a data row of 20 cells whose first cell is not valid UTF-8
sends no gauge sample (not 12), and a data row of 61 cells whose code in cell 42 is
not valid UTF-8 sends an error sample and then fails. -/
theorem C10_counterexample :
    ((badLabelRow.take 20).length = 20
      ∧ (Collect demoCollector
          (demoEnv [demoHeader.take 20, badLabelRow.take 20])).sent.length = 0
      ∧ min (badLabelRow.take 20).length 41 - 8 = 12)
    ∧ ((errorSamples demoCollector
          (Collect demoCollector
            (demoEnv [demoHeader, badSecondCodeRow])).sent).length = 1
      ∧ (Collect demoCollector
          (demoEnv [demoHeader, badSecondCodeRow])).failure
        = some (.labelValueNotUTF8 badString)) := by
  decide

/-- C10, amended: a data row with n < 61 cells makes `Collect` fail without sending
any error sample; when its cells 0..7 are valid UTF-8 (or n is at most 8) exactly
`min n 41 - 8` metrics (truncated at 0) are sent, namely the gauge samples for
positions 8 .. min n 41 - 1 in descriptor order, and the failure is an out-of-range
one.  In general an error sample is sent only by a call whose data row has at least
61 cells, which raises no out-of-range failure. -/
theorem C10_short_row {V : Type} [Zero V] (url : String) (timeout : Int) (env : Env V)
    (body : GoString) (records : List (List GoString)) (row : List GoString)
    (hfetch : env.httpGet url timeout = .response 200 body)
    (hread : env.readAll body = .ok records)
    (hrow : records[1]? = some row) (hlen : row.length < 61) :
    errorSamples (collector url timeout) (Collect (collector url timeout) env).sent = []
    ∧ (Collect (collector url timeout) env).failure ≠ none
    ∧ ((labelsValid row = true ∨ row.length ≤ 8) →
        (Collect (collector url timeout) env).sent.length = min row.length 41 - 8
        ∧ (∀ k, k < min row.length 41 - 8 → ∃ s,
            (Collect (collector url timeout) env).sent[k]? = some s ∧
            (Describe (collector url timeout))[k]? = some s.desc ∧
            s.valueType = .GaugeValue ∧
            (convert env.parseFloat row)[8 + k]? = some s.value ∧
            s.labelValues = row.take 8)
        ∧ gaugeSamples (collector url timeout) (Collect (collector url timeout) env).sent
            = (Collect (collector url timeout) env).sent
        ∧ ∃ e, (Collect (collector url timeout) env).failure = some e ∧ e.isShape = true)
    ∧ ∀ env' : Env V,
        errorSamples (collector url timeout) (Collect (collector url timeout) env').sent ≠ [] →
        ∃ body' records' row', env'.httpGet url timeout = .response 200 body' ∧
          env'.readAll body' = .ok records' ∧ records'[1]? = some row' ∧
          61 ≤ row'.length ∧
          ∀ e, (Collect (collector url timeout) env').failure = some e → e.isShape = false := by
  obtain ⟨hnone, hfail⟩ := errorSamples_short url timeout env body records row hfetch hread
    hrow hlen
  refine ⟨hnone, hfail, ?_, ?_⟩
  · intro hok
    obtain ⟨hsent, hshape⟩ := Collect_short url timeout env body records row hfetch hread
      hrow hlen hok
    have hsplit := samples_split url timeout (row.take 8) (convert env.parseFloat row)
      (min row.length 41 - 8) ([] : List (GoString × V))
    simp only [List.map_nil, List.append_nil] at hsplit
    have hvlen := convert_length env.parseFloat row
    refine ⟨?_, ?_, ?_, hshape⟩
    · rw [hsent, List.length_map, List.length_take, gaugeStatements_length]
      omega
    · intro k hk
      have h := gauge_initial_getElem? (collector url timeout) (row.take 8)
        (convert env.parseFloat row) (min row.length 41 - 8) k hk (by omega) (by omega) []
      rw [List.append_nil] at h
      rw [hsent]
      exact h
    · rw [hsent]; exact hsplit.1
  · intro env' hne
    by_cases hex : ∃ body records row, env'.httpGet url timeout = .response 200 body ∧
        env'.readAll body = .ok records ∧ records[1]? = some row
    · obtain ⟨body', records', row', h1, h2, h3⟩ := hex
      by_cases hl : 61 ≤ row'.length
      · exact ⟨body', records', row', h1, h2, h3, hl, fun e he =>
          long_row_no_shape_failure url timeout env' body' records' row' h1 h2 h3 hl e he⟩
      · exact absurd (errorSamples_short url timeout env' body' records' row' h1 h2 h3
          (Nat.lt_of_not_le hl)).1 hne
    · exfalso
      apply hne
      rw [(Collect_no_row (collector url timeout) env' hex).1]
      rfl

/-- C10 amended, exercised on a data row of 20 cells: 12 gauge samples are sent
before the failure. -/
theorem C10_short_row_witness :
    (Collect demoCollector
      (demoEnv [demoHeader.take 20, demoRow.take 20])).sent.length = 12 :=
  ((C10_short_row demoURL 10
    (demoEnv [demoHeader.take 20, demoRow.take 20]) (goString "body")
    [demoHeader.take 20, demoRow.take 20] (demoRow.take 20) rfl rfl rfl (by decide)).2.2.1
    (Or.inl (by decide))).1

/-- C4: with a fetched and decoded record set of fewer than 2 records `Collect`
fails with the "no printer rows found" failure naming the number of records and
sends nothing; with exactly 1 record the message names 1.  With 2 or more records
that failure is not raised and the row processed is `records[1]`: the outcome is that
of lines 174-231 on `records[1]`, and replacing the decoder output by any record set
with the same second record leaves the outcome unchanged. -/
theorem C4_row_count {V : Type} [Zero V] (b : BrotherCollector) (env : Env V)
    (body : GoString) (records : List (List GoString))
    (hfetch : env.httpGet b.url b.timeout = .response 200 body)
    (hread : env.readAll body = .ok records) :
    (records.length < 2 →
        (Collect b env).failure = some (.noRows ("no printer rows found. found " ++
          toString records.length ++ " rows in total"))
        ∧ (Collect b env).sent = [])
    ∧ (records.length = 1 →
        (Collect b env).failure
          = some (.noRows "no printer rows found. found 1 rows in total"))
    ∧ (2 ≤ records.length →
        (∀ msg, (Collect b env).failure ≠ some (.noRows msg))
        ∧ ∃ row, records[1]? = some row
          ∧ Collect b env = ⟨(collectRow b env row).1, true, (collectRow b env row).2⟩
          ∧ ∀ records' : List (List GoString), records'[1]? = some row →
              Collect b { env with readAll := fun _ => .ok records' } = Collect b env) := by
  refine ⟨?_, ?_, ?_⟩
  · intro hl
    rw [Collect_noRows b env body records hfetch hread (by omega)]
    exact ⟨rfl, rfl⟩
  · intro hl
    rw [Collect_noRows b env body records hfetch hread (by omega), hl]
    rfl
  · intro hl
    have h1 : 1 < records.length := by omega
    have hrow : records[1]? = some records[1] := List.getElem?_eq_getElem h1
    have hC := Collect_of_row b env body records records[1] hfetch hread hrow
    refine ⟨?_, records[1], hrow, hC, ?_⟩
    · intro msg hc
      rw [hC] at hc
      rcases collectRow_failure_kind b env records[1] _ hc with h | ⟨x, y, h⟩ | ⟨val, h⟩
      · cases h
      · cases h
      · cases h
    · intro records' hrow'
      rw [hC, Collect_of_row b { env with readAll := fun _ => .ok records' } body records'
        records[1] hfetch rfl hrow']
      rfl

/-- C4, exercised on a record set holding only the header. -/
theorem C4_row_count_witness :
    (Collect demoCollector (demoEnv [demoHeader])).failure
      = some (.noRows "no printer rows found. found 1 rows in total") :=
  (C4_row_count demoCollector (demoEnv [demoHeader])
    (goString "body") [demoHeader] rfl rfl).2.1 rfl

/-- C7: `Collect` reaches the decoder exactly when the fetch returned a response
with status 200.  When building the request or performing it fails (a deadline
expiry is such a failure of `Do`), and when the status is not 200, `Collect` fails
without reaching the decoder and sends nothing; the failure is the transport
failure carrying the fetch error, respectively the status failure naming the code
received, and in neither case a CSV or row-count failure. -/
theorem C7_fetch_gate {V : Type} [Zero V] (b : BrotherCollector) (env : Env V) :
    ((Collect b env).bodyRead = true ↔
        ∃ body, env.httpGet b.url b.timeout = .response 200 body)
    ∧ (∀ err, env.httpGet b.url b.timeout = .requestError err →
        Collect b env = ⟨[], false, some (.request err)⟩)
    ∧ (∀ err, env.httpGet b.url b.timeout = .doError err →
        Collect b env = ⟨[], false, some (.transport err)⟩)
    ∧ (∀ statusCode body, env.httpGet b.url b.timeout = .response statusCode body →
        statusCode ≠ 200 →
        Collect b env
          = ⟨[], false, some (.status ("did not get a 200 OK: " ++ toString statusCode))⟩)
    ∧ ((∀ body, env.httpGet b.url b.timeout ≠ .response 200 body) →
        (Collect b env).sent = [] ∧ (Collect b env).bodyRead = false
        ∧ (∀ err, (Collect b env).failure ≠ some (.csv err))
        ∧ (∀ msg, (Collect b env).failure ≠ some (.noRows msg))
        ∧ (Collect b env).failure ≠ none) := by
  have hgate : ∀ body, env.httpGet b.url b.timeout = .response 200 body →
      (Collect b env).bodyRead = true := by
    intro body hf
    cases hr : env.readAll body with
    | error err => rw [Collect_csv b env body err hf hr]
    | ok records =>
      by_cases hl : records.length ≤ 1
      · rw [Collect_noRows b env body records hf hr hl]
      · have h1 : 1 < records.length := Nat.lt_of_not_le hl
        rw [Collect_of_row b env body records records[1] hf hr (List.getElem?_eq_getElem h1)]
  have hclosed : (∀ body, env.httpGet b.url b.timeout ≠ .response 200 body) →
      (Collect b env).sent = [] ∧ (Collect b env).bodyRead = false
        ∧ (∀ err, (Collect b env).failure ≠ some (.csv err))
        ∧ (∀ msg, (Collect b env).failure ≠ some (.noRows msg))
        ∧ (Collect b env).failure ≠ none := by
    intro hne
    cases hf : env.httpGet b.url b.timeout with
    | requestError err =>
      rw [Collect_requestError b env err hf]
      exact ⟨rfl, rfl, fun _ hc => (by cases hc), fun _ hc => (by cases hc),
        fun hc => (by cases hc)⟩
    | doError err =>
      rw [Collect_doError b env err hf]
      exact ⟨rfl, rfl, fun _ hc => (by cases hc), fun _ hc => (by cases hc),
        fun hc => (by cases hc)⟩
    | response statusCode body =>
      have hs : statusCode ≠ 200 := by
        rintro rfl
        exact hne body hf
      rw [Collect_status b env statusCode body hf hs]
      exact ⟨rfl, rfl, fun _ hc => (by cases hc), fun _ hc => (by cases hc),
        fun hc => (by cases hc)⟩
  refine ⟨⟨?_, ?_⟩, ?_, ?_, ?_, hclosed⟩
  · intro hb
    by_contra hex
    have h := (hclosed (fun body hc => hex ⟨body, hc⟩)).2.1
    rw [hb] at h
    cases h
  · rintro ⟨body, hf⟩
    exact hgate body hf
  · exact fun err hf => Collect_requestError b env err hf
  · exact fun err hf => Collect_doError b env err hf
  · exact fun statusCode body hf hs => Collect_status b env statusCode body hf hs

/-- C7, exercised on a fetch whose deadline expired and on a 404 response. -/
theorem C7_fetch_gate_witness :
    Collect demoCollector
        (demoEnvWith (.doError "context deadline exceeded") [demoHeader, demoRow])
      = ⟨[], false, some (.transport "context deadline exceeded")⟩
    ∧ Collect demoCollector
        (demoEnvWith (.response 404 (goString "not found")) [demoHeader, demoRow])
      = ⟨[], false, some (.status "did not get a 200 OK: 404")⟩ :=
  ⟨(C7_fetch_gate demoCollector
      (demoEnvWith (.doError "context deadline exceeded") [demoHeader, demoRow])).2.2.1
      "context deadline exceeded" rfl,
   (C7_fetch_gate demoCollector
      (demoEnvWith (.response 404 (goString "not found")) [demoHeader, demoRow])).2.2.2.1
      404 (goString "not found") rfl (by decide)⟩

/-- C2 fails as stated: on a data row of 61 cells whose first cell is not valid UTF-8
no error sample is sent for the code E1 of cell 41, and on one whose code in cell 41
is not valid UTF-8 no error sample is sent for the code E2 of cell 42. -/
theorem C2_counterexample :
    (61 ≤ badLabelRow.length ∧ goString "E1" ∈ codeRegion badLabelRow
      ∧ ((errorSamples demoCollector
          (Collect demoCollector (demoEnv [demoHeader, badLabelRow])).sent).filter
            (fun s => decide (s.labelValues.getLast? = some (goString "E1")))).length = 0)
    ∧ (61 ≤ badCodeRow.length ∧ goString "E2" ∈ codeRegion badCodeRow
      ∧ ((errorSamples demoCollector
          (Collect demoCollector (demoEnv [demoHeader, badCodeRow])).sent).filter
            (fun s => decide (s.labelValues.getLast? = some (goString "E2")))).length = 0) := by
  decide

/-- C2, amended: for a data row with at least 61 cells and valid UTF-8 in cells 0..7
and 41..50, and a string c occurring in cells 41..50, there is a greatest position
p in 41..50 holding c, and the error samples whose error label is c are exactly one
sample: it is built on `ErrorCountMetric`, its 9 label values are cells 0..7 of the
raw row followed by c, and its value is the typed-row value at position p+10. -/
theorem C2_error_sample_per_code {V : Type} [Zero V] (url : String) (timeout : Int)
    (env : Env V) (body : GoString) (records : List (List GoString)) (row : List GoString)
    (hfetch : env.httpGet url timeout = .response 200 body)
    (hread : env.readAll body = .ok records)
    (hrow : records[1]? = some row) (hlen : 61 ≤ row.length)
    (hlabels : labelsValid row = true) (hcodes : codesValid row = true)
    (horder : ∀ m, (env.rangeOrder m).Perm m)
    (c : GoString) (hc : c ∈ codeRegion row) :
    (∃ p, LastCodePosition row c p)
    ∧ (row.take 8 ++ [c]).length = 9
    ∧ ∀ p x, LastCodePosition row c p → (convert env.parseFloat row)[p + 10]? = some x →
        (errorSamples (collector url timeout) (Collect (collector url timeout) env).sent).filter
            (fun s => decide (s.labelValues.getLast? = some c))
          = [⟨(collector url timeout).ErrorCountMetric, .GaugeValue, x, row.take 8 ++ [c]⟩] := by
  have hvlen := convert_length env.parseFloat row
  have hperm := horder (tally row (convert env.parseFloat row) (List.range' 41 10) [])
  have hndT := tally_nodup row (convert env.parseFloat row) (List.range' 41 10) [] (by simp)
  have hndE := ((hperm.map Prod.fst).nodup_iff).2 hndT
  refine ⟨?_, ?_, ?_⟩
  · have hk := (tally_keys_iff row (convert env.parseFloat row) (by omega) c).2 hc
    obtain ⟨⟨c', x⟩, hmem, hfst⟩ := List.mem_map.1 hk
    simp only at hfst
    subst hfst
    obtain ⟨p, hp, _⟩ := (tally_entry_iff row (convert env.parseFloat row) hlen hvlen c' x).1 hmem
    exact ⟨p, hp⟩
  · rw [List.length_append, List.length_take]
    simp only [List.length_singleton]
    omega
  · intro p x hp hx
    have hmem : (c, x) ∈ tally row (convert env.parseFloat row) (List.range' 41 10) [] :=
      (tally_entry_iff row (convert env.parseFloat row) hlen hvlen c x).2 ⟨p, hp, hx⟩
    have hmemE := hperm.mem_iff.2 hmem
    rw [errorSamples_long_valid url timeout env body records row hfetch hread hrow hlen
      hlabels hcodes horder, errorSample_filter, filter_key_singleton c x _ hndE hmemE]
    rfl

/-- C2 amended, exercised on the sample row: codes E1, E2, E1 at 41..43 with counts
5, 3, 9 at 51..53 give one sample for E1 with value 9 and one for E2 with value 3. -/
theorem C2_error_sample_per_code_witness :
    (errorSamples demoCollector
        (Collect demoCollector (demoEnv [demoHeader, demoRow])).sent).filter
          (fun s => decide (s.labelValues.getLast? = some (goString "E1")))
      = [⟨demoCollector.ErrorCountMetric, .GaugeValue, 9,
          demoRow.take 8 ++ [goString "E1"]⟩]
    ∧ (errorSamples demoCollector
        (Collect demoCollector (demoEnv [demoHeader, demoRow])).sent).filter
          (fun s => decide (s.labelValues.getLast? = some (goString "E2")))
      = [⟨demoCollector.ErrorCountMetric, .GaugeValue, 3,
          demoRow.take 8 ++ [goString "E2"]⟩] :=
  ⟨(C2_error_sample_per_code demoURL 10 (demoEnv [demoHeader, demoRow]) (goString "body")
      [demoHeader, demoRow] demoRow rfl rfl rfl (by decide) (by decide) (by decide)
      (fun m => List.Perm.refl m) (goString "E1") (by decide)).2.2 43 9 (by decide) rfl,
   (C2_error_sample_per_code demoURL 10 (demoEnv [demoHeader, demoRow]) (goString "body")
      [demoHeader, demoRow] demoRow rfl rfl rfl (by decide) (by decide) (by decide)
      (fun m => List.Perm.refl m) (goString "E2") (by decide)).2.2 42 3 (by decide) rfl⟩

/-- C3 fails as stated: the sample row has 2 distinct non-empty codes in cells
41..50 (E1 and E2) and `Collect` sends 3 error samples, the third for the empty
code; and the row whose code in cell 41 is not valid UTF-8 has 3 distinct non-empty
codes and `Collect` sends no error sample. -/
theorem C3_counterexample :
    (61 ≤ demoRow.length
      ∧ ((codeRegion demoRow).filter (fun c => decide (c ≠ []))).dedup.length = 2
      ∧ (errorSamples demoCollector
          (Collect demoCollector (demoEnv [demoHeader, demoRow])).sent).length = 3)
    ∧ (61 ≤ badCodeRow.length
      ∧ ((codeRegion badCodeRow).filter (fun c => decide (c ≠ []))).dedup.length = 3
      ∧ (errorSamples demoCollector
          (Collect demoCollector (demoEnv [demoHeader, badCodeRow])).sent).length = 0) := by
  decide

/-- C3, amended: for a data row with at least 61 cells and valid UTF-8 in cells 0..7
and 41..50, whose cells 41..50 hold N distinct non-empty strings, `Collect` sends N
error samples when none of those cells is empty and N+1 when one is.  The codes the
error samples carry are the distinct strings of cells 41..50, each once, so the
additional sample is the one carrying the empty code.  Every error sample carries
cells 0..7 followed by its code, and the typed-row value at p+10 for the greatest
position p holding that code. -/
theorem C3_error_sample_count {V : Type} [Zero V] (url : String) (timeout : Int)
    (env : Env V) (body : GoString) (records : List (List GoString)) (row : List GoString)
    (hfetch : env.httpGet url timeout = .response 200 body)
    (hread : env.readAll body = .ok records)
    (hrow : records[1]? = some row) (hlen : 61 ≤ row.length)
    (hlabels : labelsValid row = true) (hcodes : codesValid row = true)
    (horder : ∀ m, (env.rangeOrder m).Perm m) :
    (errorSamples (collector url timeout) (Collect (collector url timeout) env).sent).length
      = ((codeRegion row).filter (fun c => decide (c ≠ []))).dedup.length
        + (if [] ∈ codeRegion row then 1 else 0)
    ∧ ((errorSamples (collector url timeout)
          (Collect (collector url timeout) env).sent).map errorCode).Perm
        (codeRegion row).dedup
    ∧ ((errorSamples (collector url timeout)
          (Collect (collector url timeout) env).sent).map errorCode).Nodup
    ∧ ([] ∈ codeRegion row →
        ((errorSamples (collector url timeout)
          (Collect (collector url timeout) env).sent).filter
            (fun s => decide (errorCode s = []))).length = 1)
    ∧ ∀ s ∈ errorSamples (collector url timeout) (Collect (collector url timeout) env).sent,
        ∃ p, s.desc = (collector url timeout).ErrorCountMetric ∧
          errorCode s ∈ codeRegion row ∧
          s.labelValues = row.take 8 ++ [errorCode s] ∧
          LastCodePosition row (errorCode s) p ∧
          (convert env.parseFloat row)[p + 10]? = some s.value := by
  have hvlen := convert_length env.parseFloat row
  have hperm := horder (tally row (convert env.parseFloat row) (List.range' 41 10) [])
  have hkeys := tally_keys_perm row (convert env.parseFloat row) (by omega)
  have hcodesPerm : ((env.rangeOrder
      (tally row (convert env.parseFloat row) (List.range' 41 10) [])).map Prod.fst).Perm
      (codeRegion row).dedup := (hperm.map Prod.fst).trans hkeys
  rw [errorSamples_long_valid url timeout env body records row hfetch hread hrow hlen
    hlabels hcodes horder, map_errorCode_errorSample]
  refine ⟨?_, hcodesPerm, hcodesPerm.nodup_iff.2 (List.nodup_dedup _), ?_, ?_⟩
  · rw [List.length_map, hperm.length_eq,
      tally_length row (convert env.parseFloat row) (by omega), dedup_length_split]
  · intro hempty
    have hfm : ((env.rangeOrder
        (tally row (convert env.parseFloat row) (List.range' 41 10) [])).map
          (errorSample (collector url timeout) (row.take 8))).filter
            (fun s => decide (errorCode s = []))
        = ((env.rangeOrder
            (tally row (convert env.parseFloat row) (List.range' 41 10) [])).filter
              (fun e => decide (e.1 = []))).map
            (errorSample (collector url timeout) (row.take 8)) := by
      rw [List.filter_map]
      congr 1
      apply List.filter_congr
      intro e _
      simp [errorCode_errorSample]
    have hk := (tally_keys_iff row (convert env.parseFloat row) (by omega) []).2 hempty
    obtain ⟨⟨c', x⟩, hmem, hfst⟩ := List.mem_map.1 hk
    simp only at hfst
    subst hfst
    have hndT := tally_nodup row (convert env.parseFloat row) (List.range' 41 10) [] (by simp)
    have hndE := ((hperm.map Prod.fst).nodup_iff).2 hndT
    rw [hfm, filter_key_singleton [] x _ hndE (hperm.mem_iff.2 hmem)]
    rfl
  · intro s hs
    obtain ⟨⟨c, x⟩, hmem, rfl⟩ := List.mem_map.1 hs
    have hmemT := hperm.mem_iff.1 hmem
    obtain ⟨p, hp, hx⟩ :=
      (tally_entry_iff row (convert env.parseFloat row) hlen hvlen c x).1 hmemT
    rw [errorCode_errorSample]
    refine ⟨p, rfl, ?_, rfl, hp, hx⟩
    exact (tally_keys_iff row (convert env.parseFloat row) (by omega) c).1
      (List.mem_map.2 ⟨(c, x), hmemT, rfl⟩)

/-- C3 amended, exercised on the sample row: 2 non-empty codes and an empty cell
give 3 error samples. -/
theorem C3_error_sample_count_witness :
    (errorSamples demoCollector
        (Collect demoCollector (demoEnv [demoHeader, demoRow])).sent).length
      = ((codeRegion demoRow).filter (fun c => decide (c ≠ []))).dedup.length
        + (if [] ∈ codeRegion demoRow then 1 else 0) :=
  (C3_error_sample_count demoURL 10 (demoEnv [demoHeader, demoRow]) (goString "body")
    [demoHeader, demoRow] demoRow rfl rfl rfl (by decide) (by decide) (by decide)
    (fun m => List.Perm.refl m)).1

/-- C8 fails as stated: on the row whose code in cell 41 is not valid UTF-8 the cells
41..50 hold 4 distinct strings and `Collect` sends no error sample. -/
theorem C8_counterexample :
    61 ≤ badCodeRow.length
    ∧ (codeRegion badCodeRow).dedup.length = 4
    ∧ (errorSamples demoCollector
        (Collect demoCollector (demoEnv [demoHeader, badCodeRow])).sent).length = 0 := by
  decide

/-- C8, amended: empty codes are kept.  For a data row with at least 61 cells and
valid UTF-8 in cells 0..7 and 41..50, the number of error samples equals the number
of distinct strings among cells 41..50, the empty string included, and lies between
1 and 10; when some cell of 41..50 is empty there is a last empty position p and the
sample with the empty error label and the typed-row value at p+10 is among the error
samples. -/
theorem C8_empty_code_kept {V : Type} [Zero V] (url : String) (timeout : Int)
    (env : Env V) (body : GoString) (records : List (List GoString)) (row : List GoString)
    (hfetch : env.httpGet url timeout = .response 200 body)
    (hread : env.readAll body = .ok records)
    (hrow : records[1]? = some row) (hlen : 61 ≤ row.length)
    (hlabels : labelsValid row = true) (hcodes : codesValid row = true)
    (horder : ∀ m, (env.rangeOrder m).Perm m) :
    (errorSamples (collector url timeout) (Collect (collector url timeout) env).sent).length
      = (codeRegion row).dedup.length
    ∧ 1 ≤ (errorSamples (collector url timeout) (Collect (collector url timeout) env).sent).length
    ∧ (errorSamples (collector url timeout) (Collect (collector url timeout) env).sent).length
        ≤ 10
    ∧ ([] ∈ codeRegion row →
        (∃ p, LastCodePosition row [] p)
        ∧ ∀ p x, LastCodePosition row [] p →
            (convert env.parseFloat row)[p + 10]? = some x →
            (⟨(collector url timeout).ErrorCountMetric, .GaugeValue, x, row.take 8 ++ [[]]⟩ :
                Metric V)
              ∈ errorSamples (collector url timeout)
                  (Collect (collector url timeout) env).sent) := by
  have hvlen := convert_length env.parseFloat row
  have hperm := horder (tally row (convert env.parseFloat row) (List.range' 41 10) [])
  have hES := errorSamples_long_valid url timeout env body records row hfetch hread hrow hlen
    hlabels hcodes horder
  have hcount : (errorSamples (collector url timeout)
      (Collect (collector url timeout) env).sent).length = (codeRegion row).dedup.length := by
    rw [hES, List.length_map, hperm.length_eq,
      tally_length row (convert env.parseFloat row) (by omega)]
  have hreg := codeRegion_length row (by omega)
  refine ⟨hcount, ?_, ?_, ?_⟩
  · rw [hcount]
    have hne : (codeRegion row).dedup ≠ [] := by
      intro hnil
      have h0 : codeRegion row = [] := (List.dedup_eq_nil _).1 hnil
      rw [h0] at hreg
      cases hreg
    exact List.length_pos.2 hne
  · rw [hcount, ← hreg]
    exact (List.dedup_sublist _).length_le
  · intro hempty
    refine ⟨?_, ?_⟩
    · have hk := (tally_keys_iff row (convert env.parseFloat row) (by omega) []).2 hempty
      obtain ⟨⟨c', x⟩, hmem, hfst⟩ := List.mem_map.1 hk
      simp only at hfst
      subst hfst
      obtain ⟨p, hp, _⟩ :=
        (tally_entry_iff row (convert env.parseFloat row) hlen hvlen [] x).1 hmem
      exact ⟨p, hp⟩
    · intro p x hp hx
      have hmem : (([] : GoString), x)
          ∈ tally row (convert env.parseFloat row) (List.range' 41 10) [] :=
        (tally_entry_iff row (convert env.parseFloat row) hlen hvlen [] x).2 ⟨p, hp, hx⟩
      rw [hES]
      exact List.mem_map.2 ⟨([], x), hperm.mem_iff.2 hmem, rfl⟩

/-- C8 amended, exercised on the sample row: three error samples, one of them for
the empty code with the count of position 60. -/
theorem C8_empty_code_kept_witness :
    (errorSamples demoCollector
        (Collect demoCollector (demoEnv [demoHeader, demoRow])).sent).length = 3
    ∧ (⟨demoCollector.ErrorCountMetric, .GaugeValue, 0, demoRow.take 8 ++ [[]]⟩ :
          Metric Int)
        ∈ errorSamples demoCollector
            (Collect demoCollector (demoEnv [demoHeader, demoRow])).sent :=
  ⟨(C8_empty_code_kept demoURL 10 (demoEnv [demoHeader, demoRow]) (goString "body")
      [demoHeader, demoRow] demoRow rfl rfl rfl (by decide) (by decide) (by decide)
      (fun m => List.Perm.refl m)).1,
   ((C8_empty_code_kept demoURL 10 (demoEnv [demoHeader, demoRow]) (goString "body")
      [demoHeader, demoRow] demoRow rfl rfl rfl (by decide) (by decide) (by decide)
      (fun m => List.Perm.refl m)).2.2.2 (by decide)).2 50 0 (by decide) rfl⟩

/-- C5 fails as stated: on a data row of 61 cells with the text "n/a" at gauge
position 12 and a first cell that is not valid UTF-8, `Collect` fails and sends no
gauge sample for position 12. -/
theorem C5_counterexample :
    61 ≤ (badLabelRow.set 12 (goString "n/a")).length
    ∧ demoParse (goString "n/a") = none
    ∧ (Collect demoCollector
        (demoEnv [demoHeader, badLabelRow.set 12 (goString "n/a")])).sent.length = 0
    ∧ (Collect demoCollector
        (demoEnv [demoHeader, badLabelRow.set 12 (goString "n/a")])).failure
      = some (.labelValueNotUTF8 badString) := by
  decide

/-- C5, amended: the typed row has the length of the raw row; at every position it
holds the parsed float when the cell parses and zero otherwise.  For a data row
with at least 61 cells and valid UTF-8 in cells 0..7, a cell at a gauge position
8..40 that does not parse yields a gauge sample, at that position's place, with
value zero; when cells 41..50 are valid UTF-8 too, `Collect` raises no failure. -/
theorem C5_typed_row {V : Type} [Zero V] (url : String) (timeout : Int) (env : Env V) :
    (∀ row : List GoString, (convert env.parseFloat row).length = row.length)
    ∧ (∀ (row : List GoString) (i : Nat) (cell : GoString), row[i]? = some cell →
        (∀ f, env.parseFloat cell = some f → (convert env.parseFloat row)[i]? = some f)
        ∧ (env.parseFloat cell = none → (convert env.parseFloat row)[i]? = some 0))
    ∧ (∀ (body : GoString) (records : List (List GoString)) (row : List GoString),
        env.httpGet url timeout = .response 200 body → env.readAll body = .ok records →
        records[1]? = some row → 61 ≤ row.length → labelsValid row = true →
        (∀ (k : Nat) (cell : GoString), 8 ≤ k → k ≤ 40 → row[k]? = some cell →
            env.parseFloat cell = none →
            ∃ s, (Collect (collector url timeout) env).sent[k - 8]? = some s ∧
              (Describe (collector url timeout))[k - 8]? = some s.desc ∧
              s.valueType = .GaugeValue ∧ s.value = 0)
        ∧ (codesValid row = true → (∀ m, (env.rangeOrder m).Perm m) →
            (Collect (collector url timeout) env).failure = none)) := by
  refine ⟨fun row => convert_length env.parseFloat row, ?_, ?_⟩
  · intro row i cell hcell
    rw [convert_getElem?, hcell]
    refine ⟨?_, ?_⟩
    · intro f hf
      simp [hf]
    · intro hf
      simp [hf]
  · intro body records row hfetch hread hrow hlen hlabels
    have hC := Collect_long url timeout env body records row hfetch hread hrow hlen hlabels
    have hvlen := convert_length env.parseFloat row
    refine ⟨?_, ?_⟩
    · rw [hC]
      intro k cell hk1 hk2 hcell hparse
      obtain ⟨s, h1, h2, h3, h4, _⟩ := gauge_initial_getElem? (collector url timeout)
        (row.take 8) (convert env.parseFloat row) 33 (k - 8) (by omega) (le_refl _) (by omega)
        (((env.rangeOrder
            (tally row (convert env.parseFloat row) (List.range' 41 10) [])).takeWhile
          (fun e => validString e.1)).map (errorSample (collector url timeout) (row.take 8)))
      refine ⟨s, h1, h2, h3, ?_⟩
      have hk : 8 + (k - 8) = k := by omega
      rw [hk, convert_getElem?, hcell] at h4
      simp only [Option.map_some', hparse, Option.getD_none, Option.some.injEq] at h4
      exact h4.symm
    · intro hcodes horder
      rw [Collect_long_valid url timeout env body records row hfetch hread hrow hlen hlabels
        hcodes horder]

/-- C5 amended, exercised on the sample row with the text "n/a" at gauge position
12: the fifth metric sent has value zero and no failure is raised. -/
theorem C5_typed_row_witness :
    (Collect demoCollector
        (demoEnv [demoHeader, demoRow.set 12 (goString "n/a")])).failure = none
    ∧ ∃ s, (Collect demoCollector
        (demoEnv [demoHeader, demoRow.set 12 (goString "n/a")])).sent[12 - 8]? = some s ∧
      (Describe demoCollector)[12 - 8]? = some s.desc ∧
      s.valueType = .GaugeValue ∧ s.value = 0 :=
  ⟨((C5_typed_row demoURL 10 (demoEnv [demoHeader, demoRow.set 12 (goString "n/a")])).2.2
      (goString "body") [demoHeader, demoRow.set 12 (goString "n/a")]
      (demoRow.set 12 (goString "n/a")) rfl rfl rfl (by decide) (by decide)).2 (by decide)
      (fun m => List.Perm.refl m),
   ((C5_typed_row demoURL 10 (demoEnv [demoHeader, demoRow.set 12 (goString "n/a")])).2.2
      (goString "body") [demoHeader, demoRow.set 12 (goString "n/a")]
      (demoRow.set 12 (goString "n/a")) rfl rfl rfl (by decide) (by decide)).1
      12 (goString "n/a") (by decide) (by decide) rfl rfl⟩

/-- C6 fails as stated: a data row of 20 cells whose first cell is not valid UTF-8
makes `Collect` fail inside `MustNewConstMetric`, which is not an out-of-range
failure, although the row has fewer than 61 cells. -/
theorem C6_counterexample :
    (badLabelRow.take 20).length < 61
    ∧ (Collect demoCollector
        (demoEnv [demoHeader.take 20, badLabelRow.take 20])).failure
      = some (.labelValueNotUTF8 badString)
    ∧ (Failure.labelValueNotUTF8 badString).isShape = false := by
  decide

/-- C6, amended: for a fetched and decoded record set with a data row (hence at
least 2 records), an out-of-range failure of `Collect` means the data row has fewer
than 61 cells, and a data row with fewer than 61 cells whose cells 0..7 are valid
UTF-8 (or which has at most 8 cells) gives an out-of-range failure; with 61 or more
cells no out-of-range failure is raised and every position the code reads
(`row[0:8]`, `values[8..40]`, `row[41..50]`, `values[51..60]`) is in range. -/
theorem C6_shape_failure {V : Type} [Zero V] (url : String) (timeout : Int) (env : Env V)
    (body : GoString) (records : List (List GoString)) (row : List GoString)
    (hfetch : env.httpGet url timeout = .response 200 body)
    (hread : env.readAll body = .ok records)
    (hrow : records[1]? = some row) :
    2 ≤ records.length
    ∧ ((∃ e, (Collect (collector url timeout) env).failure = some e ∧ e.isShape = true)
        → row.length < 61)
    ∧ ((labelsValid row = true ∨ row.length ≤ 8) →
        ((∃ e, (Collect (collector url timeout) env).failure = some e ∧ e.isShape = true)
          ↔ row.length < 61))
    ∧ (61 ≤ row.length →
        (∀ e, (Collect (collector url timeout) env).failure = some e → e.isShape = false)
        ∧ (row.take 8).length = 8
        ∧ (∀ p ∈ gaugeStatements (collector url timeout),
            ((convert env.parseFloat row)[p.2]?).isSome = true)
        ∧ (∀ i, 41 ≤ i → i ≤ 50 →
            (row[i]?).isSome = true ∧ ((convert env.parseFloat row)[i + 10]?).isSome = true)) := by
  have hvlen := convert_length env.parseFloat row
  have hforward : (∃ e, (Collect (collector url timeout) env).failure = some e
      ∧ e.isShape = true) → row.length < 61 := by
    rintro ⟨e, he, hs⟩
    by_contra hc
    have := long_row_no_shape_failure url timeout env body records row hfetch hread hrow
      (by omega) e he
    rw [this] at hs
    cases hs
  refine ⟨?_, hforward, ?_, ?_⟩
  · by_contra hc
    rw [List.getElem?_eq_none (by omega)] at hrow
    cases hrow
  · intro hok
    exact ⟨hforward, fun hlen =>
      (Collect_short url timeout env body records row hfetch hread hrow hlen hok).2⟩
  · intro hlen
    refine ⟨fun e he => long_row_no_shape_failure url timeout env body records row hfetch
      hread hrow hlen e he, ?_, ?_, ?_⟩
    · rw [List.length_take]; omega
    · intro p hp
      have := gaugeStatements_pos _ p hp
      have hp2 : p.2 < (convert env.parseFloat row).length := by omega
      rw [List.getElem?_eq_getElem hp2]
      rfl
    · intro i h1 h2
      have hi : i < row.length := by omega
      have hi10 : i + 10 < (convert env.parseFloat row).length := by omega
      rw [List.getElem?_eq_getElem hi, List.getElem?_eq_getElem hi10]
      exact ⟨rfl, rfl⟩

/-- C6 amended, exercised on a data row of 60 cells: an out-of-range failure is
raised. -/
theorem C6_shape_failure_witness :
    ∃ e, (Collect demoCollector
        (demoEnv [demoHeader.take 60, demoRow.take 60])).failure = some e
      ∧ e.isShape = true :=
  ((C6_shape_failure demoURL 10 (demoEnv [demoHeader.take 60, demoRow.take 60]) (goString "body")
    [demoHeader.take 60, demoRow.take 60] (demoRow.take 60) rfl rfl rfl).2.2.1
    (Or.inl (by decide))).2 (by decide)

/-- C9: every gauge descriptor of the registered collector has the 8 label names of
`labels`; the error-count descriptor has those 8 followed by "error_message", 9 in
all; `newBrotherCollector` leaves the `labels` slice as it was.  `Describe` announces
34 descriptors.  Every metric `Collect` sends is built on one of them with as many
label values as the descriptor has label names, so the arity check never fails; for
a data row with at least 61 cells the gauge samples carry 8 label values each and the
error samples 9 each; there are 33 gauge samples when cells 0..7 are valid UTF-8, and
no failure when cells 41..50 are valid UTF-8 too. -/
theorem C9_label_arity (url : String) (timeout : Int) :
    (∀ d ∈ (Describe (collector url timeout)).take 33, d.variableLabels = labels)
    ∧ labels.length = 8
    ∧ (collector url timeout).ErrorCountMetric.variableLabels = labels ++ ["error_message"]
    ∧ (collector url timeout).ErrorCountMetric.variableLabels.length = 9
    ∧ (newBrotherCollector url timeout startHeap).2.read labelsVar = startHeap.read labelsVar
    ∧ startHeap.read labelsVar = labels
    ∧ (Describe (collector url timeout)).length = 34
    ∧ ∀ (V : Type) [Zero V] (env : Env V),
        (∀ s ∈ (Collect (collector url timeout) env).sent,
          s.desc ∈ Describe (collector url timeout)
          ∧ s.labelValues.length = s.desc.variableLabels.length)
        ∧ (∀ x y, (Collect (collector url timeout) env).failure ≠ some (.labelCardinality x y))
        ∧ ∀ (body : GoString) (records : List (List GoString)) (row : List GoString),
            env.httpGet url timeout = .response 200 body → env.readAll body = .ok records →
            records[1]? = some row → 61 ≤ row.length →
            (∀ s ∈ gaugeSamples (collector url timeout)
                  (Collect (collector url timeout) env).sent,
                s.labelValues.length = 8 ∧ s.desc.variableLabels.length = 8)
            ∧ (∀ s ∈ errorSamples (collector url timeout)
                  (Collect (collector url timeout) env).sent,
                s.labelValues.length = 9 ∧ s.desc.variableLabels.length = 9)
            ∧ (labelsValid row = true →
                (gaugeSamples (collector url timeout)
                  (Collect (collector url timeout) env).sent).length = 33
                ∧ (codesValid row = true → (∀ m, (env.rangeOrder m).Perm m) →
                    (Collect (collector url timeout) env).failure = none)) := by
  refine ⟨?_, rfl, rfl, rfl, rfl, rfl, rfl, ?_⟩
  · intro d hd
    have e : (Describe (collector url timeout)).take 33
        = (gaugeStatements (collector url timeout)).map Prod.fst := rfl
    rw [e] at hd
    obtain ⟨p, hp, rfl⟩ := List.mem_map.1 hd
    exact collector_gauge_labels url timeout p hp
  · intro V _ env
    refine ⟨?_, ?_, ?_⟩
    · intro s hs
      have h := sent_arity url timeout env s hs
      exact ⟨h.1, h.2.1⟩
    · exact fun x y => never_labelCardinality url timeout env x y
    · intro body records row hfetch hread hrow hlen
      refine ⟨?_, ?_, ?_⟩
      · intro s hs
        have hmem : s ∈ (Collect (collector url timeout) env).sent :=
          (List.mem_filter.1 hs).1
        have hne : s.desc ≠ (collector url timeout).ErrorCountMetric := by
          simpa using (List.mem_filter.1 hs).2
        obtain ⟨_, h2, h3⟩ := sent_arity url timeout env s hmem
        rcases h3 with ⟨h3, _⟩ | ⟨_, h3⟩
        · exact absurd h3 hne
        · exact ⟨h3, by rw [← h2, h3]⟩
      · intro s hs
        have hmem : s ∈ (Collect (collector url timeout) env).sent :=
          (List.mem_filter.1 hs).1
        have heq : s.desc = (collector url timeout).ErrorCountMetric := by
          simpa using (List.mem_filter.1 hs).2
        obtain ⟨_, h2, h3⟩ := sent_arity url timeout env s hmem
        rcases h3 with ⟨_, h3⟩ | ⟨h3, _⟩
        · exact ⟨h3, by rw [← h2, h3]⟩
        · exact absurd heq h3
      · intro hlabels
        have hsplit := samples_split url timeout (row.take 8) (convert env.parseFloat row) 33
          ((env.rangeOrder
              (tally row (convert env.parseFloat row) (List.range' 41 10) [])).takeWhile
            (fun e => validString e.1))
        have hC := Collect_long url timeout env body records row hfetch hread hrow hlen hlabels
        refine ⟨?_, ?_⟩
        · rw [hC]
          simp only [hsplit.1]
          simp [gaugeStatements_length]
        · intro hcodes horder
          rw [Collect_long_valid url timeout env body records row hfetch hread hrow hlen
            hlabels hcodes horder]

/-- C9, exercised on the sample scrape: no failure, 33 gauge samples, and the
`labels` slice still shows the 8 label names. -/
theorem C9_label_arity_witness :
    (Collect demoCollector (demoEnv [demoHeader, demoRow])).failure = none
    ∧ (gaugeSamples demoCollector
        (Collect demoCollector (demoEnv [demoHeader, demoRow])).sent).length = 33
    ∧ (newBrotherCollector demoURL 10 startHeap).2.read labelsVar = startHeap.read labelsVar :=
  ⟨((((C9_label_arity demoURL 10).2.2.2.2.2.2.2 Int (demoEnv [demoHeader, demoRow])).2.2
      (goString "body") [demoHeader, demoRow] demoRow rfl rfl rfl (by decide)).2.2
      (by decide)).2 (by decide) (fun m => List.Perm.refl m),
   ((((C9_label_arity demoURL 10).2.2.2.2.2.2.2 Int (demoEnv [demoHeader, demoRow])).2.2
      (goString "body") [demoHeader, demoRow] demoRow rfl rfl rfl (by decide)).2.2
      (by decide)).1,
   (C9_label_arity demoURL 10).2.2.2.2.1⟩

end Brother
